import Mathlib

/-!
Verification development for the poker game engine (`PokerService`).

The TypeScript source stores a card as a string such as `"10♠️"`; the only
operations ever applied to a card are `getCardValue` (the rank, 2–14) and
`getCardSuit` (one of the four suit suffixes).  We embed the decoded pair
directly.  Money amounts are JS numbers used as integers; we embed them as
`Int`.  The user database (`userRepository`) is embedded as an association
list from user id to amount; message sending, timers and persistence calls
have no effect on the game state or the ledger and are not modelled.
-/

namespace Poker

/-- A playing card: `value` is the rank (2–14, 11=J, 12=Q, 13=K, 14=A),
`suit` numbers the four suit symbols `[♠️, ♥️, ♦️, ♣️]` as 0–3. -/
structure Card where
  value : Nat
  suit : Nat
deriving DecidableEq, Repr

/-- `getCardValue` parses the rank out of the card string; on the embedded
pair it is the `value` field. -/
def getCardValue (c : Card) : Nat := c.value

/-- `getCardSuit` matches the suit suffix of the card string; on the
embedded pair it is the `suit` field. -/
def getCardSuit (c : Card) : Nat := c.suit

/-- The evaluator result: a category `rank` (1 = high card … 10 = royal
flush) and the kicker sequence. -/
structure HandRank where
  rank : Nat
  kickers : List Nat
deriving DecidableEq, Repr

/-- Insert into a descending-sorted list (used to model
`values.sort((a, b) => b - a)`). -/
def insertDesc (a : Nat) : List Nat → List Nat
  | [] => [a]
  | b :: l => if b ≤ a then a :: b :: l else b :: insertDesc a l

/-- Sort a list of numbers descending, as `values.sort((a, b) => b - a)`. -/
def sortDesc : List Nat → List Nat
  | [] => []
  | a :: l => insertDesc a (sortDesc l)

/-- Insert into an ascending-sorted list. -/
def insertAsc (a : Nat) : List Nat → List Nat
  | [] => [a]
  | b :: l => if a ≤ b then a :: b :: l else b :: insertAsc a l

/-- Sort ascending; models the ascending integer-key order in which
`Object.entries(counts)` enumerates the count table. -/
def sortAsc : List Nat → List Nat
  | [] => []
  | a :: l => insertAsc a (sortAsc l)

/-- The distinct values of the hand in ascending order: the key set of the
JS `counts` object in the order `Object.entries` yields it. -/
def entryKeys (values : List Nat) : List Nat := sortAsc values.dedup

/-- `pairs`: the values whose count is exactly 2, in `Object.entries`
order. -/
def pairsOf (values : List Nat) : List Nat :=
  (entryKeys values).filter (fun v => values.count v == 2)

/-- `threes`: the values whose count is exactly 3. -/
def threesOf (values : List Nat) : List Nat :=
  (entryKeys values).filter (fun v => values.count v == 3)

/-- `fours`: the values whose count is exactly 4. -/
def foursOf (values : List Nat) : List Nat :=
  (entryKeys values).filter (fun v => values.count v == 4)

/-- `isFlush`: exactly 5 cards, all of one suit (`new Set(suits).size === 1`). -/
def isFlush (suits : List Nat) : Bool :=
  suits.length == 5 && suits.dedup.length == 1

/-- Result of `isStraight`: whether the values are a straight and the high
card used for comparison. -/
structure StraightInfo where
  isStr : Bool
  highCard : Nat
deriving DecidableEq, Repr

/-- Check that a descending list of distinct values decreases by exactly 1
at each step (the loop `uniqueValues[i] - uniqueValues[i+1] !== 1`). -/
def consecDesc : List Nat → Bool
  | a :: b :: l => a == b + 1 && consecDesc (b :: l)
  | _ => true

/-- `isStraight`: dedupe and sort descending; 5 distinct consecutive values
is a straight, and A-2-3-4-5 (the wheel) is a straight with high card 5. -/
def isStraight (values : List Nat) : StraightInfo :=
  let uniqueValues := sortDesc values.dedup
  if uniqueValues.length ≠ 5 then ⟨false, 0⟩
  else if consecDesc uniqueValues then ⟨true, uniqueValues.headD 0⟩
  else if uniqueValues == [14, 5, 4, 3, 2] then ⟨true, 5⟩
  else ⟨false, 0⟩

/-- `compareHands`' kicker loop: compare element-wise up to the shorter
length; the first differing position decides, otherwise 0. -/
def compareKickers : List Nat → List Nat → Int
  | a :: as, b :: bs => if a ≠ b then (a : Int) - b else compareKickers as bs
  | _, _ => 0

/-- `compareHands`: category first, then the kicker sequences element-wise;
positive means the first hand is stronger. -/
def compareHands (h1 h2 : HandRank) : Int :=
  if h1.rank ≠ h2.rank then (h1.rank : Int) - h2.rank
  else compareKickers h1.kickers h2.kickers

/-- `evaluateBasicHand`: the quick evaluation used while enumerating
5-card subsets.  Note the kicker sequences are truncated relative to
`calculateHandRank`: four of a kind and three of a kind record only the
group value, one pair records only the pair value, and two pair records
only the two pair values. -/
def evaluateBasicHand (hand : List Card) : HandRank :=
  let values := sortDesc (hand.map getCardValue)
  let suits := hand.map getCardSuit
  let pairs := pairsOf values
  let threes := threesOf values
  let fours := foursOf values
  let flush := isFlush suits
  let straightInfo := isStraight values
  if flush && straightInfo.isStr && values.getD 0 0 == 14 && values.getD 1 0 == 13 then
    ⟨10, [14]⟩
  else if flush && straightInfo.isStr then
    ⟨9, [straightInfo.highCard]⟩
  else if !fours.isEmpty then
    ⟨8, [fours.headD 0]⟩
  else if !threes.isEmpty && !pairs.isEmpty then
    ⟨7, [threes.headD 0, pairs.headD 0]⟩
  else if flush then
    ⟨6, values⟩
  else if straightInfo.isStr then
    ⟨5, [straightInfo.highCard]⟩
  else if !threes.isEmpty then
    ⟨4, [threes.headD 0]⟩
  else if pairs.length ≥ 2 then
    ⟨3, sortDesc pairs⟩
  else if pairs.length == 1 then
    ⟨2, [pairs.headD 0]⟩
  else
    ⟨1, values⟩

/-- All 5-element combinations of a list, in the order the five nested
index loops of `getBestFiveCardHand` enumerate them (lexicographic in the
index tuple). -/
def combos : Nat → List Card → List (List Card)
  | 0, _ => [[]]
  | _ + 1, [] => []
  | n + 1, a :: l => (combos n l).map (a :: ·) ++ combos (n + 1) l

/-- `getBestFiveCardHand`: 5 cards are returned as is; with 6 or more
cards, start from the first five and replace the candidate whenever a
later combination is strictly better under `evaluateBasicHand`. -/
def getBestFiveCardHand (hand : List Card) : List Card :=
  if hand.length == 5 then hand
  else if hand.length ≥ 6 then
    (combos 5 hand).foldl
      (fun best combo =>
        if compareHands (evaluateBasicHand combo) (evaluateBasicHand best) > 0 then
          combo
        else best)
      (hand.take 5)
  else hand.take (min 5 hand.length)

/-- The body of `calculateHandRank` applied to the chosen best five cards:
the same branch structure as `evaluateBasicHand` but with the full kicker
sequences. -/
def rankFive (bestHand : List Card) : HandRank :=
  let values := sortDesc (bestHand.map getCardValue)
  let suits := bestHand.map getCardSuit
  let pairs := pairsOf values
  let threes := threesOf values
  let fours := foursOf values
  let flush := isFlush suits
  let straightInfo := isStraight values
  if flush && straightInfo.isStr && values.getD 0 0 == 14 && values.getD 1 0 == 13 then
    ⟨10, [14]⟩
  else if flush && straightInfo.isStr then
    ⟨9, [straightInfo.highCard]⟩
  else if !fours.isEmpty then
    let fourValue := fours.headD 0
    let kicker := (values.find? (fun v => v ≠ fourValue)).getD 0
    ⟨8, [fourValue, kicker]⟩
  else if !threes.isEmpty && !pairs.isEmpty then
    ⟨7, [threes.headD 0, pairs.headD 0]⟩
  else if flush then
    ⟨6, values⟩
  else if straightInfo.isStr then
    ⟨5, [straightInfo.highCard]⟩
  else if !threes.isEmpty then
    let threeValue := threes.headD 0
    ⟨4, threeValue :: (values.filter (fun v => v ≠ threeValue)).take 2⟩
  else if pairs.length ≥ 2 then
    let pairValues := sortDesc pairs
    let kicker := (values.find? (fun v => !pairValues.contains v)).getD 0
    ⟨3, pairValues ++ [kicker]⟩
  else if pairs.length == 1 then
    let pairValue := pairs.headD 0
    ⟨2, pairValue :: (values.filter (fun v => v ≠ pairValue)).take 3⟩
  else
    ⟨1, values⟩

/-- `calculateHandRank`: pick the best five cards, then rank them with the
full kicker sequences. -/
def calculateHandRank (hand : List Card) : HandRank :=
  rankFive (getBestFiveCardHand hand)

/-- The round field of a `Game`. -/
inductive Round
  | waiting | preflop | flop | turn | river | showdown
deriving DecidableEq, Repr

/-- The `action` field of a `PlayerAction` record. -/
inductive ActionKind
  | bet | call | raise | check | fold | allin
deriving DecidableEq, Repr

/-- A player of a game.  `chips` is the table stack (held at 0 under the
"Plan A" scheme where buy-ins go straight to the pot). -/
structure Player where
  id : String
  name : String
  chips : Int
  seat : Nat
  hole : List Card
  hasFolded : Bool
  currentBet : Int
  isAllIn : Bool
deriving DecidableEq, Repr

/-- An `actionHistory` entry (the wall-clock `timestamp` is not modelled). -/
structure PlayerAction where
  playerId : String
  playerName : String
  action : ActionKind
  amount : Option Int
  totalBet : Option Int
  round : Round
deriving DecidableEq, Repr

/-- One hand instance.  The string ids (`id`, `clanId`, `channelId`) only
feed the registry key and messages and are not modelled. -/
structure Game where
  players : List Player
  deck : List Card
  burned : List Card
  board : List Card
  pot : Int
  currentBet : Int
  round : Round
  dealerButton : Nat
  currentPlayerIndex : Nat
  isActive : Bool
  hasRaiseInRound : Bool
  betAmount : Int
  lastAggressorIndex : Option Nat
  toActIds : List String
  actionHistory : List PlayerAction
deriving DecidableEq, Repr

/-- The user table of the external database: user id to amount. -/
abbrev Ledger := List (String × Int)

/-- The state an operation sees: the game, the user database, and whether
the game is present in the `activeGames` registry. -/
structure State where
  game : Game
  db : Ledger
  registered : Bool
deriving DecidableEq, Repr

/-- `userRepository.findOne({ where: { user_id } })`, projected to the
amount: first row with the given user id. -/
def dbFind : Ledger → String → Option Int
  | [], _ => none
  | e :: db, uid => if e.1 == uid then some e.2 else dbFind db uid

/-- Store a new amount for a user (`userRepository.save` after mutating
`user.amount`): update the rows with the given user id. -/
def dbSet : Ledger → String → Int → Ledger
  | [], _, _ => []
  | e :: db, uid, amt => (if e.1 == uid then (e.1, amt) else e) :: dbSet db uid amt

/-- `user.amount -= amt; save(user)` guarded by `if (user)`. -/
def dbDebit (db : Ledger) (uid : String) (amt : Int) : Ledger :=
  match dbFind db uid with
  | some a => dbSet db uid (a - amt)
  | none => db

/-- `user.amount = 0; save(user)` guarded by `if (user)` (the all-in
commit). -/
def dbZero (db : Ledger) (uid : String) : Ledger :=
  match dbFind db uid with
  | some _ => dbSet db uid 0
  | none => db

/-- `addMoneyToUser`: credit the amount if the user row exists, otherwise
do nothing. -/
def addMoneyToUser (db : Ledger) (uid : String) (amt : Int) : Ledger :=
  match dbFind db uid with
  | some a => dbSet db uid (a + amt)
  | none => db

/-- Placeholder player used only for `headD` on lists proved nonempty. -/
def dummyPlayer : Player :=
  { id := "", name := "", chips := 0, seat := 0, hole := [], hasFolded := false,
    currentBet := 0, isAllIn := false }

/-- `createDeck`: 13 ranks × 4 suits, suit-major as in the source. -/
def createDeck : List Card :=
  (List.range 4).flatMap (fun s =>
    ([2, 3, 4, 5, 6, 7, 8, 9, 10, 11, 12, 13, 14] : List Nat).map (fun r => ⟨r, s⟩))

/-- `game.burned.push(game.deck.pop()!)`.  TS pops from the array end; the
embedded deck keeps its top at the head.  (On an empty deck the source
would push `undefined`; the callers only reach this with a non-empty
deck.) -/
def burnOne (g : Game) : Game :=
  match g.deck with
  | [] => g
  | c :: d => { g with deck := d, burned := g.burned ++ [c] }

/-- `const card = game.deck.pop(); if (card) game.board.push(card)`. -/
def dealToBoard (g : Game) : Game :=
  match g.deck with
  | [] => g
  | c :: d => { g with deck := d, board := g.board ++ [c] }

/-- `resetForNextHand`: clear the hand state, draw a fresh deck, end the
game and drop it from the registry.  (`shuffleDeck` permutes the fresh
deck with `Math.random`; the permutation is not modelled and no claim
depends on the deck order.) -/
def resetForNextHand (s : State) : State :=
  let g := s.game
  let g := { g with
    board := [], burned := [], pot := 0, currentBet := 0, round := Round.waiting,
    players := g.players.map (fun p =>
      { p with hole := [], hasFolded := false, currentBet := 0, isAllIn := false, chips := 0 }),
    deck := createDeck,
    isActive := false }
  { s with game := g, registered := false }

/-- The payout loop of `awardPotAndRotate`: walk the players in seat
order, credit the first whose id is among the winners, then `break`. -/
def creditFirstWinner (db : Ledger) (players : List Player) (winnerIds : List String)
    (amt : Int) : Ledger :=
  match players with
  | [] => db
  | p :: rest =>
    if winnerIds.contains p.id then addMoneyToUser db p.id amt
    else creditFirstWinner db rest winnerIds amt

/-- `awardPotAndRotate`: no winners resets immediately; a game no longer
in the registry is left untouched; otherwise the whole pot is credited to
the first winning player and the hand is reset. -/
def awardPotAndRotate (winnerIds : List String) (s : State) : State :=
  if winnerIds.isEmpty then resetForNextHand s
  else if !s.registered then s
  else
    let totalWinnings := s.game.pot
    let db := creditFirstWinner s.db s.game.players winnerIds totalWinnings
    resetForNextHand { s with db := db }

/-- A contender paired with its evaluated hand, as built in the showdown
handlers. -/
structure RankedEntry where
  player : Player
  rank : HandRank
deriving DecidableEq, Repr

/-- The showdown sort comparator `(a, b) => ...`: descending by category,
then by kickers; returns the sign convention of `Array.prototype.sort`. -/
def showdownCmp (a b : RankedEntry) : Int :=
  compareHands b.rank a.rank

/-- Stable insertion for `rankedSort`. -/
def rankedInsert (a : RankedEntry) : List RankedEntry → List RankedEntry
  | [] => [a]
  | b :: l => if showdownCmp a b ≤ 0 then a :: b :: l else b :: rankedInsert a l

/-- `contenders.sort(comparator)`.  `Array.prototype.sort` is stable and
the comparator is a total preorder, so its result coincides with this
stable insertion sort. -/
def rankedSort : List RankedEntry → List RankedEntry
  | [] => []
  | a :: l => rankedInsert a (rankedSort l)

/-- Build the ranked list of the showdown handlers. -/
def rankContenders (players : List Player) (board : List Card) : List RankedEntry :=
  rankedSort (players.map (fun p => ⟨p, calculateHandRank (p.hole ++ board)⟩))

/-- `handleShowdown`: rank the non-folded contenders and award the pot to
the single first-ranked player. -/
def handleShowdown (s : State) : State :=
  let contenders := s.game.players.filter (fun p => !p.hasFolded)
  if contenders.isEmpty then resetForNextHand s
  else
    let ranked := rankContenders contenders s.game.board
    let winner := (ranked.headD ⟨dummyPlayer, ⟨0, []⟩⟩).player
    awardPotAndRotate [winner.id] s

/-- First block of `revealRemainingBoard`: with no flop out yet, burn one
card and deal three, entering `flop`. -/
def revealFlopStage (g : Game) : Game :=
  if g.board.length == 0 && g.round ≠ Round.showdown then
    { (if g.deck.length ≥ 4 then dealToBoard (dealToBoard (dealToBoard (burnOne g))) else g) with
        round := Round.flop }
  else g

/-- Second block of `revealRemainingBoard`: with a flop out, burn one card
and deal the turn. -/
def revealTurnStage (g : Game) : Game :=
  if g.board.length == 3 && g.round ≠ Round.showdown then
    { (if g.deck.length ≥ 2 then dealToBoard (burnOne g) else g) with round := Round.turn }
  else g

/-- Third block of `revealRemainingBoard`: with a turn out, burn one card
and deal the river. -/
def revealRiverStage (g : Game) : Game :=
  if g.board.length == 4 && g.round ≠ Round.showdown then
    { (if g.deck.length ≥ 2 then dealToBoard (burnOne g) else g) with round := Round.river }
  else g

/-- Final block of `revealRemainingBoard`: a full board is marked `river`,
ready for showdown. -/
def revealFinal (g : Game) : Game :=
  if g.board.length == 5 then { g with round := Round.river } else g

/-- `revealRemainingBoard`: open flop, turn and river as needed (burning
one card before each street) and land in `river` — the four sequential
`if` blocks of the source. -/
def revealRemainingBoard (g0 : Game) : Game :=
  revealFinal (revealRiverStage (revealTurnStage (revealFlopStage g0)))

/-- `handleAllInShowdown`: reveal the rest of the board, then settle — a
lone survivor wins outright, otherwise contenders are ranked and the
first-ranked one takes the pot. -/
def handleAllInShowdown (s : State) : State :=
  let g := revealRemainingBoard s.game
  let s := { s with game := g }
  let activePlayers := g.players.filter (fun p => !p.hasFolded)
  if activePlayers.isEmpty then resetForNextHand s
  else if activePlayers.length == 1 then
    awardPotAndRotate [(activePlayers.headD dummyPlayer).id] s
  else
    let ranked := rankContenders activePlayers g.board
    awardPotAndRotate [(ranked.headD ⟨dummyPlayer, ⟨0, []⟩⟩).player.id] s

/-- `setToActForNewRound`: everyone not folded owes an action. -/
def setToActForNewRound (g : Game) : Game :=
  { g with toActIds := (g.players.filter (fun p => !p.hasFolded)).map (fun p => p.id) }

/-- `setToActAfterRaise`: everyone not folded except the raiser owes an
action. -/
def setToActAfterRaise (g : Game) (raiserId : String) : Game :=
  { g with toActIds :=
      (g.players.filter (fun p => !p.hasFolded && p.id != raiserId)).map (fun p => p.id) }

/-- `removeFromToAct`: drop a player id from `toActIds`. -/
def removeFromToAct (g : Game) (pid : String) : Game :=
  { g with toActIds := g.toActIds.filter (fun id => id ≠ pid) }

/-- `findNextActivePlayer`: first non-folded seat scanning forward from
`startIndex`, else `startIndex`. -/
def findNextActivePlayer (g : Game) (startIndex : Nat) : Nat :=
  let n := g.players.length
  let idxs := (List.range' 1 n).map (fun i => (startIndex + i) % n)
  (idxs.find? (fun idx =>
    ((g.players.get? idx).map (fun p => !p.hasFolded)).getD false)).getD startIndex

/-- `findNextActorIndex`: prefer the next non-folded seat still in
`toActIds`; fall back to the next non-folded seat; else `startIndex`. -/
def findNextActorIndex (g : Game) (startIndex : Nat) : Nat :=
  let n := g.players.length
  let idxs := (List.range' 1 n).map (fun i => (startIndex + i) % n)
  let firstPass := idxs.find? (fun idx =>
    ((g.players.get? idx).map (fun p => !p.hasFolded && g.toActIds.contains p.id)).getD false)
  let secondPass := idxs.find? (fun idx =>
    ((g.players.get? idx).map (fun p => !p.hasFolded)).getD false)
  ((firstPass.orElse (fun _ => secondPass))).getD startIndex

/-- `addActionToHistory`: append an action record if the player exists. -/
def addActionToHistory (g : Game) (pid : String) (kind : ActionKind)
    (amount totalBet : Option Int) : Game :=
  match g.players.find? (fun p => p.id == pid) with
  | some p =>
    { g with actionHistory :=
        g.actionHistory ++ [⟨pid, p.name, kind, amount, totalBet, g.round⟩] }
  | none => g

/-- `handleShowdown` is reused by `advanceToNextRound` when the round is
already `showdown`; define the street advance after it. -/
def advanceToNextRound (s : State) : State :=
  let g0 := s.game
  let g0 := { g0 with hasRaiseInRound := false, lastAggressorIndex := none, actionHistory := [] }
  match g0.round with
  | Round.preflop =>
    let g := { g0 with round := Round.flop }
    let g := dealToBoard (dealToBoard (dealToBoard (burnOne g)))
    let g := setToActForNewRound g
    let g := { g with currentPlayerIndex := findNextActivePlayer g g.dealerButton }
    { s with game := g }
  | Round.flop =>
    let g := { g0 with round := Round.turn }
    let g := dealToBoard (burnOne g)
    let g := setToActForNewRound g
    let g := { g with currentPlayerIndex := findNextActivePlayer g g.dealerButton }
    { s with game := g }
  | Round.turn =>
    let g := { g0 with round := Round.river }
    let g := dealToBoard (burnOne g)
    let g := setToActForNewRound g
    let g := { g with currentPlayerIndex := findNextActivePlayer g g.dealerButton }
    { s with game := g }
  | Round.river =>
    { s with game := { g0 with currentPlayerIndex := findNextActivePlayer g0 g0.dealerButton } }
  | Round.showdown => handleShowdown { s with game := g0 }
  | Round.waiting => { s with game := g0 }

/-- `moveToNextPlayer`: early fold-out award; then the round-closure test
(`toActIds` empty and all non-folded bets matched) dispatching to the
all-in showdown, the river showdown or the next street; otherwise pass
the turn to the next actor. -/
def moveToNextPlayer (s : State) : State :=
  let g := s.game
  let activePlayers := g.players.filter (fun p => !p.hasFolded)
  if activePlayers.length == 1 then
    awardPotAndRotate [(activePlayers.headD dummyPlayer).id] s
  else
    let allMatched := activePlayers.all (fun p => p.currentBet == g.currentBet)
    if g.toActIds.length == 0 && allMatched then
      if (activePlayers.filter (fun p => p.isAllIn)).length > 0 then
        handleAllInShowdown s
      else if g.round == Round.river then
        handleShowdown { s with game := { g with round := Round.showdown } }
      else
        advanceToNextRound s
    else
      { s with game := { g with currentPlayerIndex := findNextActorIndex g g.currentPlayerIndex } }

/-- `checkAndContinueGame`: the same closure logic as `moveToNextPlayer`,
guarded by registry membership, used after a forced auto-fold. -/
def checkAndContinueGame (s : State) : State :=
  if !s.registered then s
  else
    let g := s.game
    let activePlayers := g.players.filter (fun p => !p.hasFolded)
    if activePlayers.length == 1 then
      awardPotAndRotate [(activePlayers.headD dummyPlayer).id] s
    else
      let allMatched := activePlayers.all (fun p => p.currentBet == g.currentBet)
      if g.toActIds.length == 0 && allMatched then
        if (activePlayers.filter (fun p => p.isAllIn)).length > 0 then
          handleAllInShowdown s
        else if g.round == Round.river then
          handleShowdown { s with game := { g with round := Round.showdown } }
        else
          advanceToNextRound s
      else
        if g.currentPlayerIndex < g.players.length then
          { s with game := { g with currentPlayerIndex := findNextActorIndex g g.currentPlayerIndex } }
        else s

/-- The success flag of a `GameResult` (messages and the returned game
snapshot are not modelled). -/
structure OpResult where
  success : Bool
deriving DecidableEq, Repr

/-- `getActiveGame`: the game if it is in the registry and active. -/
def getActiveGame (s : State) : Option Game :=
  if s.registered && s.game.isActive then some s.game else none

/-- `makeCall`: pay the difference up to `game.currentBet`, leave
`toActIds`, hand the turn on.  Failures (no active game, not the current
player, already folded, nothing to call, insufficient funds) change
nothing. -/
def makeCall (pid : String) (s : State) : OpResult × State :=
  match getActiveGame s with
  | none => (⟨false⟩, s)
  | some g =>
    match g.players.get? g.currentPlayerIndex with
    | none => (⟨false⟩, s)
    | some currentPlayer =>
      if currentPlayer.id ≠ pid then (⟨false⟩, s)
      else if currentPlayer.hasFolded then (⟨false⟩, s)
      else
        let amountToCall := g.currentBet - currentPlayer.currentBet
        if amountToCall ≤ 0 then (⟨false⟩, s)
        else
          let userAmount := (dbFind s.db pid).getD 0
          if userAmount < amountToCall then (⟨false⟩, s)
          else
            let db := dbDebit s.db pid amountToCall
            let g := { g with
              players := g.players.set g.currentPlayerIndex
                { currentPlayer with currentBet := currentPlayer.currentBet + amountToCall },
              pot := g.pot + amountToCall }
            let g := removeFromToAct g pid
            let g := addActionToHistory g pid ActionKind.call (some amountToCall)
              (some (currentPlayer.currentBet + amountToCall))
            (⟨true⟩, moveToNextPlayer { s with game := g, db := db })

/-- `makeCheck`: legal only when the player's bet already matches the
table bet. -/
def makeCheck (pid : String) (s : State) : OpResult × State :=
  match getActiveGame s with
  | none => (⟨false⟩, s)
  | some g =>
    match g.players.get? g.currentPlayerIndex with
    | none => (⟨false⟩, s)
    | some currentPlayer =>
      if currentPlayer.id ≠ pid then (⟨false⟩, s)
      else if currentPlayer.hasFolded then (⟨false⟩, s)
      else if currentPlayer.currentBet < g.currentBet then (⟨false⟩, s)
      else
        let g := removeFromToAct g pid
        let g := addActionToHistory g pid ActionKind.check none none
        (⟨true⟩, moveToNextPlayer { s with game := g })

/-- `makeFold`: mark the player folded, drop them from `toActIds`, hand
the turn on. -/
def makeFold (pid : String) (s : State) : OpResult × State :=
  match getActiveGame s with
  | none => (⟨false⟩, s)
  | some g =>
    match g.players.get? g.currentPlayerIndex with
    | none => (⟨false⟩, s)
    | some currentPlayer =>
      if currentPlayer.id ≠ pid then (⟨false⟩, s)
      else if currentPlayer.hasFolded then (⟨false⟩, s)
      else
        let g := { g with
          players := g.players.set g.currentPlayerIndex { currentPlayer with hasFolded := true } }
        let g := removeFromToAct g pid
        let g := addActionToHistory g pid ActionKind.fold none none
        (⟨true⟩, moveToNextPlayer { s with game := g })

/-- `makeRaise`: raise to a caller-chosen total.  Requires a positive
delta within the table stack, a total above the current bet and enough
external balance; on success commits the delta, records the aggressor and
resets `toActIds` to everyone else. -/
def makeRaise (pid : String) (toTotal : Int) (s : State) : OpResult × State :=
  match getActiveGame s with
  | none => (⟨false⟩, s)
  | some g =>
    match g.players.get? g.currentPlayerIndex with
    | none => (⟨false⟩, s)
    | some currentPlayer =>
      if currentPlayer.id ≠ pid then (⟨false⟩, s)
      else if currentPlayer.hasFolded then (⟨false⟩, s)
      else
        let amountToAdd := toTotal - currentPlayer.currentBet
        if amountToAdd ≤ 0 ∨ amountToAdd > currentPlayer.chips then (⟨false⟩, s)
        else if toTotal ≤ g.currentBet then (⟨false⟩, s)
        else
          let userAmount := (dbFind s.db pid).getD 0
          if userAmount < amountToAdd then (⟨false⟩, s)
          else
            let db := dbDebit s.db pid amountToAdd
            let newPlayer := { currentPlayer with currentBet := toTotal }
            let newPlayer :=
              if currentPlayer.chips == 0 then { newPlayer with isAllIn := true } else newPlayer
            let g := { g with
              players := g.players.set g.currentPlayerIndex newPlayer,
              pot := g.pot + amountToAdd,
              currentBet := toTotal,
              hasRaiseInRound := true,
              lastAggressorIndex := some g.currentPlayerIndex }
            let g := setToActAfterRaise g pid
            let g := addActionToHistory g pid ActionKind.raise (some amountToAdd) (some toTotal)
            (⟨true⟩, moveToNextPlayer { s with game := g, db := db })

/-- `makeRaiseByBetAmount`: raise by the table's unit stake on top of the
current bet. -/
def makeRaiseByBetAmount (pid : String) (s : State) : OpResult × State :=
  match getActiveGame s with
  | none => (⟨false⟩, s)
  | some g =>
    match g.players.get? g.currentPlayerIndex with
    | none => (⟨false⟩, s)
    | some currentPlayer =>
      if currentPlayer.id ≠ pid then (⟨false⟩, s)
      else if currentPlayer.hasFolded then (⟨false⟩, s)
      else
        let raiseAmount := g.betAmount
        let newTotalBet := g.currentBet + raiseAmount
        let amountToAdd := newTotalBet - currentPlayer.currentBet
        if amountToAdd ≤ 0 then (⟨false⟩, s)
        else
          let userAmount := (dbFind s.db pid).getD 0
          if userAmount < amountToAdd then (⟨false⟩, s)
          else
            let db := dbDebit s.db pid amountToAdd
            let g := { g with
              players := g.players.set g.currentPlayerIndex
                { currentPlayer with currentBet := newTotalBet },
              pot := g.pot + amountToAdd,
              currentBet := newTotalBet,
              hasRaiseInRound := true,
              lastAggressorIndex := some g.currentPlayerIndex }
            let g := setToActAfterRaise g pid
            let g := addActionToHistory g pid ActionKind.raise (some raiseAmount) (some newTotalBet)
            (⟨true⟩, moveToNextPlayer { s with game := g, db := db })

/-- `makeRaiseByMultiplier`: raise by `betAmount × multiplier` (clamped at
0) on top of the current bet. -/
def makeRaiseByMultiplier (pid : String) (multiplier : Int) (s : State) : OpResult × State :=
  match getActiveGame s with
  | none => (⟨false⟩, s)
  | some g =>
    match g.players.get? g.currentPlayerIndex with
    | none => (⟨false⟩, s)
    | some currentPlayer =>
      if currentPlayer.id ≠ pid then (⟨false⟩, s)
      else if currentPlayer.hasFolded then (⟨false⟩, s)
      else
        let raiseAmount := max 0 (g.betAmount * multiplier)
        let newTotalBet := g.currentBet + raiseAmount
        let amountToAdd := newTotalBet - currentPlayer.currentBet
        if amountToAdd ≤ 0 then (⟨false⟩, s)
        else
          let userAmount := (dbFind s.db pid).getD 0
          if userAmount < amountToAdd then (⟨false⟩, s)
          else
            let db := dbDebit s.db pid amountToAdd
            let g := { g with
              players := g.players.set g.currentPlayerIndex
                { currentPlayer with currentBet := newTotalBet },
              pot := g.pot + amountToAdd,
              currentBet := newTotalBet,
              hasRaiseInRound := true,
              lastAggressorIndex := some g.currentPlayerIndex }
            let g := setToActAfterRaise g pid
            let g := addActionToHistory g pid ActionKind.raise (some raiseAmount) (some newTotalBet)
            (⟨true⟩, moveToNextPlayer { s with game := g, db := db })

/-- `makeRaiseByPot`: raise by `max(betAmount, pot)` on top of the current
bet. -/
def makeRaiseByPot (pid : String) (s : State) : OpResult × State :=
  match getActiveGame s with
  | none => (⟨false⟩, s)
  | some g =>
    match g.players.get? g.currentPlayerIndex with
    | none => (⟨false⟩, s)
    | some currentPlayer =>
      if currentPlayer.id ≠ pid then (⟨false⟩, s)
      else if currentPlayer.hasFolded then (⟨false⟩, s)
      else
        let raiseAmount := max g.betAmount g.pot
        let newTotalBet := g.currentBet + raiseAmount
        let amountToAdd := newTotalBet - currentPlayer.currentBet
        if amountToAdd ≤ 0 then (⟨false⟩, s)
        else
          let userAmount := (dbFind s.db pid).getD 0
          if userAmount < amountToAdd then (⟨false⟩, s)
          else
            let db := dbDebit s.db pid amountToAdd
            let g := { g with
              players := g.players.set g.currentPlayerIndex
                { currentPlayer with currentBet := newTotalBet },
              pot := g.pot + amountToAdd,
              currentBet := newTotalBet,
              hasRaiseInRound := true,
              lastAggressorIndex := some g.currentPlayerIndex }
            let g := setToActAfterRaise g pid
            let g := addActionToHistory g pid ActionKind.raise (some raiseAmount) (some newTotalBet)
            (⟨true⟩, moveToNextPlayer { s with game := g, db := db })

/-- `makeAllIn`: commit the player's whole external balance.  A zero
balance is rejected, and so is a balance short of the amount needed to
call a positive outstanding bet.  On success the player's bet grows by the
whole balance, the player is marked all-in, `toActIds` is reset to the
other non-folded players whether or not the table bet was raised, and the
action record is appended after the turn has moved on (the source calls
`addActionToHistory` after `moveToNextPlayer`). -/
def makeAllIn (pid : String) (s : State) : OpResult × State :=
  match getActiveGame s with
  | none => (⟨false⟩, s)
  | some g =>
    match g.players.get? g.currentPlayerIndex with
    | none => (⟨false⟩, s)
    | some currentPlayer =>
      if currentPlayer.id ≠ pid then (⟨false⟩, s)
      else if currentPlayer.hasFolded then (⟨false⟩, s)
      else
        let userAmount := (dbFind s.db pid).getD 0
        let amountToCall := max 0 (g.currentBet - currentPlayer.currentBet)
        if userAmount ≤ 0 then (⟨false⟩, s)
        else if amountToCall > 0 ∧ userAmount < amountToCall then (⟨false⟩, s)
        else
          let allInAmount := userAmount
          let newPlayerBet := currentPlayer.currentBet + allInAmount
          let db := dbZero s.db pid
          let g := { g with
            players := g.players.set g.currentPlayerIndex
              { currentPlayer with chips := 0, currentBet := newPlayerBet, isAllIn := true },
            pot := g.pot + allInAmount }
          if newPlayerBet > g.currentBet then
            let g := { g with
              currentBet := newPlayerBet,
              hasRaiseInRound := true,
              lastAggressorIndex := some g.currentPlayerIndex }
            let g := setToActAfterRaise g pid
            let s := moveToNextPlayer { s with game := g, db := db }
            let s := { s with game :=
              addActionToHistory s.game pid ActionKind.allin (some allInAmount) (some newPlayerBet) }
            (⟨true⟩, s)
          else
            let g := setToActAfterRaise g pid
            let g := { g with lastAggressorIndex := some g.currentPlayerIndex }
            let s := moveToNextPlayer { s with game := g, db := db }
            let s := { s with game :=
              addActionToHistory s.game pid ActionKind.allin (some allInAmount) (some newPlayerBet) }
            (⟨true⟩, s)

/-- `handleInsufficientFundsTimeout`: when the grace timer fires and the
player still cannot cover the call, auto-fold them and resume the
round-closure evaluation. -/
def handleInsufficientFundsTimeout (pid : String) (s : State) : State :=
  if !s.registered then s
  else
    let g := s.game
    match g.players.findIdx? (fun p => p.id == pid) with
    | none => s
    | some idx =>
      match g.players.get? idx with
      | none => s
      | some player =>
        if player.hasFolded then s
        else
          let callAmount := g.currentBet - player.currentBet
          let userAmount := (dbFind s.db pid).getD 0
          if userAmount < callAmount then
            let g := { g with players := g.players.set idx { player with hasFolded := true } }
            let g := removeFromToAct g pid
            checkAndContinueGame { s with game := g }
          else s

/-- `handleTurnTimeout`: fold the current player when the turn timer fires
and they still have not acted. -/
def handleTurnTimeout (pid : String) (s : State) : State :=
  match s.game.players.get? s.game.currentPlayerIndex with
  | none => s
  | some player =>
    if player.id == pid && !player.hasFolded then (makeFold pid s).2 else s

/-- One iteration of the `deductPlayersFunds` loop: debit the user only
if the row exists and covers the stake (`if (user && user.amount >=
betAmount)`), otherwise leave the ledger alone. -/
def deductOne (db : Ledger) (pid : String) (betAmount : Int) : Ledger :=
  match dbFind db pid with
  | some amt => if amt ≥ betAmount then dbSet db pid (amt - betAmount) else db
  | none => db

/-- `deductPlayersFunds`: walk the player list, debiting only users that
exist and can cover the stake; always reports success. -/
def deductPlayersFunds (playerIds : List String) (betAmount : Int) (db : Ledger) :
    OpResult × Ledger :=
  (⟨true⟩, playerIds.foldl (fun db pid => deductOne db pid betAmount) db)

/-- `startGame`: build the hand with the pot pre-filled to
`players × betAmount`, debit the buy-ins and register the game.  Display
name resolution is external; `shuffleDeck`'s random permutation is not
modelled. -/
def startGame (playerIds : List String) (betAmount : Int) (db : Ledger) : State :=
  let players := playerIds.mapIdx (fun index id =>
    { id := id, name := "", chips := 0, seat := index, hole := [],
      hasFolded := false, currentBet := 0, isAllIn := false : Player })
  let game : Game := {
    players := players, deck := createDeck, burned := [], board := [],
    pot := playerIds.length * betAmount, currentBet := 0, round := Round.waiting,
    dealerButton := 0, currentPlayerIndex := 0, isActive := true,
    hasRaiseInRound := false, betAmount := betAmount, lastAggressorIndex := none,
    toActIds := [], actionHistory := [] }
  let db := (deductPlayersFunds playerIds betAmount db).2
  { game := game, db := db, registered := true }

/-- One pass of the dealing loop: give each player the top card (the
source skips a player silently when the deck runs dry). -/
def dealRound : List Player → List Card → List Player × List Card
  | [], deck => ([], deck)
  | p :: rest, [] =>
    let (ps, d) := dealRound rest []
    (p :: ps, d)
  | p :: rest, c :: deck =>
    let (ps, d) := dealRound rest deck
    ({ p with hole := p.hole ++ [c] } :: ps, d)

/-- `postBlinds`: no blinds — zero all bets, seat the first actor after
the dealer button and open the round to every non-folded player. -/
def postBlinds (g : Game) : Game :=
  let g := { g with
    players := g.players.map (fun p : Player => { p with currentBet := 0 }),
    currentBet := 0 }
  let g := { g with currentPlayerIndex := (g.dealerButton + 1) % g.players.length }
  let g := setToActForNewRound g
  { g with lastAggressorIndex := none }

/-- `dealCardsAndStartGame`: two hole cards each, enter `preflop` and post
the (empty) blinds. -/
def dealCardsAndStartGame (s : State) : State :=
  if !s.registered then s
  else
    let g := s.game
    let (players, deck) := dealRound g.players g.deck
    let (players, deck) := dealRound players deck
    let g := { g with players := players, deck := deck, round := Round.preflop }
    let g := postBlinds g
    { s with game := g }


/-- Example player for concrete scenarios. -/
def exPlayer (id : String) (seat : Nat) (bet : Int) : Player :=
  { id := id, name := id, chips := 0, seat := seat, hole := [⟨2, 0⟩, ⟨3, 1⟩],
    hasFolded := false, currentBet := bet, isAllIn := false }

/-- Example two-player game: p2 has bet 10, p1 (to act, index 0) owes 10. -/
def exGame : Game :=
  { players := [exPlayer "p1" 0 0, exPlayer "p2" 1 10],
    deck := createDeck, burned := [], board := [],
    pot := 20, currentBet := 10, round := Round.preflop, dealerButton := 0,
    currentPlayerIndex := 0, isActive := true, hasRaiseInRound := true,
    betAmount := 10, lastAggressorIndex := some 1, toActIds := ["p1"],
    actionHistory := [] }

/-- Example state around `exGame` with both users funded. -/
def exState : State :=
  { game := exGame, db := [("p1", 100), ("p2", 90)], registered := true }

/-- Example state whose game is not active (settled). -/
def exInactiveState : State :=
  { game := { exGame with isActive := false }, db := [("p1", 100), ("p2", 90)],
    registered := false }

/-- Example state where the current player's balance (5) is positive but
below the 100 needed to call. -/
def exShortAllInState : State :=
  { game := { exGame with currentBet := 100 }, db := [("p1", 5), ("p2", 90)],
    registered := true }

/-- Example state for raises: p1 has table chips (1000) and a funded
ledger row, the table bet is 10 with p1 owing it. -/
def exRaiseState : State :=
  { game := { exGame with
      players := [{ exPlayer "p1" 0 0 with chips := 1000 }, exPlayer "p2" 1 10] },
    db := [("p1", 1000), ("p2", 90)], registered := true }

/-- Example state at round closure: both players have matched bets of 10
and `toActIds` is empty. -/
def exClosureState : State :=
  { game := { exGame with
      toActIds := [],
      players := [exPlayer "p1" 0 10, exPlayer "p2" 1 10] },
    db := [("p1", 100), ("p2", 90)], registered := true }

/-! ### Properties of the hand comparison -/

theorem compareKickers_self (a : List Nat) : compareKickers a a = 0 := by
  induction a with
  | nil => rfl
  | cons x xs ih => simp [compareKickers, ih]

theorem compareHands_self (h : HandRank) : compareHands h h = 0 := by
  simp [compareHands, compareKickers_self]

theorem compareKickers_antisymm (a b : List Nat) :
    compareKickers a b = -compareKickers b a := by
  induction a generalizing b with
  | nil => cases b <;> simp [compareKickers]
  | cons x xs ih =>
    cases b with
    | nil => simp [compareKickers]
    | cons y ys =>
      by_cases hxy : x = y
      · subst hxy
        simpa [compareKickers] using ih ys
      · simp only [compareKickers, if_pos hxy, if_pos (Ne.symm hxy)]
        omega

theorem compareHands_antisymm (h1 h2 : HandRank) :
    compareHands h1 h2 = -compareHands h2 h1 := by
  by_cases hr : h1.rank = h2.rank
  · simp [compareHands, hr, compareKickers_antisymm h1.kickers h2.kickers]
  · simp only [compareHands, if_pos hr, if_pos (Ne.symm hr)]
    omega

theorem compareKickers_trans_pos (a b c : List Nat)
    (h1 : compareKickers a b > 0) (h2 : compareKickers b c > 0) :
    compareKickers a c > 0 := by
  induction a generalizing b c with
  | nil => simp [compareKickers] at h1
  | cons x xs ih =>
    cases b with
    | nil => simp [compareKickers] at h1
    | cons y ys =>
      cases c with
      | nil => simp [compareKickers] at h2
      | cons z zs =>
        by_cases hxy : x = y <;> by_cases hyz : y = z
        · subst hxy; subst hyz
          simp only [compareKickers, if_neg (fun h : _ ≠ _ => h rfl)] at h1 h2 ⊢
          exact ih ys zs h1 h2
        · subst hxy
          simp only [compareKickers, if_neg (fun h : _ ≠ _ => h rfl), if_pos hyz] at h2 ⊢
          omega
        · subst hyz
          simp only [compareKickers, if_pos hxy] at h1 ⊢
          omega
        · simp only [compareKickers, if_pos hxy] at h1
          simp only [compareKickers, if_pos hyz] at h2
          have hxz : x ≠ z := by omega
          simp only [compareKickers, if_pos hxz]
          omega

theorem compareKickers_trans_mix (a b c : List Nat)
    (h1 : compareKickers a b > 0) (h2 : compareKickers b c ≥ 0) :
    compareKickers a c ≥ 0 := by
  induction a generalizing b c with
  | nil => simp [compareKickers] at h1
  | cons x xs ih =>
    cases b with
    | nil => simp [compareKickers] at h1
    | cons y ys =>
      cases c with
      | nil => cases xs <;> simp [compareKickers]
      | cons z zs =>
        by_cases hxy : x = y <;> by_cases hyz : y = z
        · subst hxy; subst hyz
          simp only [compareKickers, if_neg (fun h : _ ≠ _ => h rfl)] at h1 h2 ⊢
          exact ih ys zs h1 h2
        · subst hxy
          simp only [compareKickers, if_neg (fun h : _ ≠ _ => h rfl), if_pos hyz] at h2 ⊢
          omega
        · subst hyz
          simp only [compareKickers, if_pos hxy] at h1 ⊢
          omega
        · simp only [compareKickers, if_pos hxy] at h1
          simp only [compareKickers, if_pos hyz] at h2
          have hxz : x ≠ z := by omega
          simp only [compareKickers, if_pos hxz]
          omega

theorem compareHands_trans_pos (h1 h2 h3 : HandRank)
    (a : compareHands h1 h2 > 0) (b : compareHands h2 h3 > 0) :
    compareHands h1 h3 > 0 := by
  by_cases r12 : h1.rank = h2.rank <;> by_cases r23 : h2.rank = h3.rank
  · have r13 : h1.rank = h3.rank := r12.trans r23
    simp only [compareHands, if_neg (fun h : _ ≠ _ => h r12), if_neg (fun h : _ ≠ _ => h r23),
      if_neg (fun h : _ ≠ _ => h r13)] at a b ⊢
    exact compareKickers_trans_pos _ _ _ a b
  · simp only [compareHands, if_pos r23] at b
    have r13 : h1.rank ≠ h3.rank := by omega
    simp only [compareHands, if_pos r13]
    omega
  · simp only [compareHands, if_pos r12] at a
    have r13 : h1.rank ≠ h3.rank := by omega
    simp only [compareHands, if_pos r13]
    omega
  · simp only [compareHands, if_pos r12] at a
    simp only [compareHands, if_pos r23] at b
    have r13 : h1.rank ≠ h3.rank := by omega
    simp only [compareHands, if_pos r13]
    omega

theorem compareHands_trans_mix (h1 h2 h3 : HandRank)
    (a : compareHands h1 h2 > 0) (b : compareHands h2 h3 ≥ 0) :
    compareHands h1 h3 ≥ 0 := by
  by_cases r12 : h1.rank = h2.rank <;> by_cases r23 : h2.rank = h3.rank
  · have r13 : h1.rank = h3.rank := r12.trans r23
    simp only [compareHands, if_neg (fun h : _ ≠ _ => h r12), if_neg (fun h : _ ≠ _ => h r23),
      if_neg (fun h : _ ≠ _ => h r13)] at a b ⊢
    exact compareKickers_trans_mix _ _ _ a b
  · simp only [compareHands, if_pos r23] at b
    have r13 : h1.rank ≠ h3.rank := by omega
    simp only [compareHands, if_pos r13]
    omega
  · simp only [compareHands, if_pos r12] at a
    have r13 : h1.rank ≠ h3.rank := by omega
    simp only [compareHands, if_pos r13]
    omega
  · simp only [compareHands, if_pos r12] at a
    simp only [compareHands, if_pos r23] at b
    have r13 : h1.rank ≠ h3.rank := by omega
    simp only [compareHands, if_pos r13]
    omega

/-- The candidate-replacement fold of `getBestFiveCardHand` yields a hand
that is either the initial candidate or strictly better, and is at least
as good as every enumerated combination under `evaluateBasicHand`. -/
theorem foldBest_spec (l : List (List Card)) (init : List Card) :
    (l.foldl
        (fun best combo =>
          if compareHands (evaluateBasicHand combo) (evaluateBasicHand best) > 0 then combo
          else best) init = init
      ∨ compareHands
          (evaluateBasicHand (l.foldl
            (fun best combo =>
              if compareHands (evaluateBasicHand combo) (evaluateBasicHand best) > 0 then combo
              else best) init))
          (evaluateBasicHand init) > 0)
    ∧ ∀ x ∈ l,
        compareHands
          (evaluateBasicHand (l.foldl
            (fun best combo =>
              if compareHands (evaluateBasicHand combo) (evaluateBasicHand best) > 0 then combo
              else best) init))
          (evaluateBasicHand x) ≥ 0 := by
  induction l generalizing init with
  | nil => exact ⟨Or.inl rfl, by intro x hx; cases hx⟩
  | cons y l ih =>
    simp only [List.foldl_cons]
    by_cases hy : compareHands (evaluateBasicHand y) (evaluateBasicHand init) > 0
    · rw [if_pos hy]
      obtain ⟨hbase, hall⟩ := ih y
      constructor
      · right
        rcases hbase with h | h
        · rw [h]; exact hy
        · exact compareHands_trans_pos _ _ _ h hy
      · intro x hx
        rcases List.mem_cons.mp hx with h | h
        · subst h
          rcases hbase with h | h
          · rw [h]; simp [compareHands_self]
          · omega
        · exact hall x h
    · rw [if_neg hy]
      obtain ⟨hbase, hall⟩ := ih init
      refine ⟨hbase, ?_⟩
      intro x hx
      have hinv : compareHands (evaluateBasicHand init) (evaluateBasicHand y) ≥ 0 := by
        rw [compareHands_antisymm]; omega
      rcases List.mem_cons.mp hx with h | h
      · subst h
        rcases hbase with h | h
        · rw [h]; exact hinv
        · exact compareHands_trans_mix _ _ _ h hinv
      · exact hall x h

/-- Every element of `combos n l` has length `n`. -/
theorem combos_mem_length : ∀ (n : Nat) (l : List Card) (x : List Card),
    x ∈ combos n l → x.length = n := by
  intro n
  induction n with
  | zero => intro l x hx; simp [combos] at hx; simp [hx]
  | succ n ih =>
    intro l
    induction l with
    | nil => intro x hx; simp [combos] at hx
    | cons a l ihl =>
      intro x hx
      simp only [combos, List.mem_append, List.mem_map] at hx
      rcases hx with ⟨y, hy, rfl⟩ | hx
      · simp [ih l y hy]
      · exact ihl x hx

/-- `rankFive` and `evaluateBasicHand` branch on the same conditions and
therefore always agree on the category. -/
theorem rankFive_rank_eq (h : List Card) :
    (rankFive h).rank = (evaluateBasicHand h).rank := by
  simp only [rankFive, evaluateBasicHand]
  (repeat' split) <;> rfl

/-- A hand at least as good as another has at least its category. -/
theorem compareHands_rank_ge (h1 h2 : HandRank)
    (h : compareHands h1 h2 ≥ 0) : h1.rank ≥ h2.rank := by
  by_cases hr : h1.rank = h2.rank
  · omega
  · simp only [compareHands, if_pos hr] at h
    omega

/-- A 5-card list is returned unchanged by `getBestFiveCardHand`. -/
theorem getBestFiveCardHand_five (S : List Card) (h : S.length = 5) :
    getBestFiveCardHand S = S := by
  simp [getBestFiveCardHand, h]

/-! ### Claim theorems: the hand evaluator -/

/-- C8: the 5-card evaluator golden cases.  A-K-Q-J-10 in one suit is a
Royal Flush (category 10); 7-7-7-2-2 is a Full House (category 7) with
kickers [7, 2]; A-2-3-4-5 of mixed suits is a Straight (category 5) whose
comparison high card is 5, so it compares strictly below the 6-5-4-3-2
straight. -/
theorem C8_evaluator_golden :
    calculateHandRank [⟨14, 0⟩, ⟨13, 0⟩, ⟨12, 0⟩, ⟨11, 0⟩, ⟨10, 0⟩] = ⟨10, [14]⟩
    ∧ calculateHandRank [⟨7, 3⟩, ⟨7, 2⟩, ⟨7, 1⟩, ⟨2, 0⟩, ⟨2, 3⟩] = ⟨7, [7, 2]⟩
    ∧ calculateHandRank [⟨14, 2⟩, ⟨2, 3⟩, ⟨3, 0⟩, ⟨4, 1⟩, ⟨5, 2⟩] = ⟨5, [5]⟩
    ∧ compareHands (calculateHandRank [⟨14, 2⟩, ⟨2, 3⟩, ⟨3, 0⟩, ⟨4, 1⟩, ⟨5, 2⟩])
        (calculateHandRank [⟨6, 3⟩, ⟨5, 2⟩, ⟨4, 0⟩, ⟨3, 1⟩, ⟨2, 2⟩]) < 0 := by
  decide

/-- C2 counterexample: on the 6-card input 2♠ 2♥ 3♦ Q♣ J♠ K♥ the evaluator
returns pair-of-twos with kickers [2, 12, 11, 3], which is strictly below
the direct evaluation of its 5-card subset 2♠ 2♥ Q♣ J♠ K♥ (kickers
[2, 13, 12, 11]): the returned value is not maximal under the full
category-then-kickers ordering. -/
theorem C2_counterexample :
    ([⟨2, 0⟩, ⟨2, 1⟩, ⟨12, 3⟩, ⟨11, 0⟩, ⟨13, 1⟩] : List Card).Sublist
        [⟨2, 0⟩, ⟨2, 1⟩, ⟨3, 2⟩, ⟨12, 3⟩, ⟨11, 0⟩, ⟨13, 1⟩]
    ∧ ([⟨2, 0⟩, ⟨2, 1⟩, ⟨3, 2⟩, ⟨12, 3⟩, ⟨11, 0⟩, ⟨13, 1⟩] : List Card).length = 6
    ∧ compareHands
        (calculateHandRank [⟨2, 0⟩, ⟨2, 1⟩, ⟨3, 2⟩, ⟨12, 3⟩, ⟨11, 0⟩, ⟨13, 1⟩])
        (calculateHandRank [⟨2, 0⟩, ⟨2, 1⟩, ⟨12, 3⟩, ⟨11, 0⟩, ⟨13, 1⟩]) < 0 := by
  decide

/-- C2 (amended): for a 6- or 7-card input, the evaluator's chosen five
cards are maximal over all enumerated 5-card subsets under the ordering
actually used for the enumeration — category then the *truncated* kicker
sequences of `evaluateBasicHand` — and consequently the returned category
is the maximum category over all 5-card subsets.  (Maximality does not
extend to the full kicker sequences, see the counterexample.) -/
theorem C2_best_subset_basic_max (hand : List Card) (h6 : 6 ≤ hand.length)
    (S : List Card) (hS : S ∈ combos 5 hand) :
    compareHands (evaluateBasicHand (getBestFiveCardHand hand)) (evaluateBasicHand S) ≥ 0
    ∧ (calculateHandRank hand).rank ≥ (calculateHandRank S).rank := by
  have hlen5 : S.length = 5 := combos_mem_length 5 hand S hS
  have hne : ¬ ((hand.length == 5) = true) := by simp; omega
  have hbest : getBestFiveCardHand hand
      = (combos 5 hand).foldl
          (fun best combo =>
            if compareHands (evaluateBasicHand combo) (evaluateBasicHand best) > 0 then combo
            else best)
          (hand.take 5) := by
    rw [getBestFiveCardHand, if_neg hne, if_pos h6]
  have hmax : compareHands (evaluateBasicHand (getBestFiveCardHand hand))
      (evaluateBasicHand S) ≥ 0 := by
    rw [hbest]
    exact (foldBest_spec (combos 5 hand) (hand.take 5)).2 S hS
  refine ⟨hmax, ?_⟩
  have h1 : calculateHandRank hand = rankFive (getBestFiveCardHand hand) := rfl
  have h2 : calculateHandRank S = rankFive S := by
    rw [calculateHandRank, getBestFiveCardHand_five S hlen5]
  rw [h1, h2, rankFive_rank_eq, rankFive_rank_eq]
  exact compareHands_rank_ge _ _ hmax

/-- Witness for `C2_best_subset_basic_max` at the counterexample hand and
its first enumerated subset. -/
theorem C2_best_subset_basic_max_witness :
    compareHands
      (evaluateBasicHand
        (getBestFiveCardHand [⟨2, 0⟩, ⟨2, 1⟩, ⟨3, 2⟩, ⟨12, 3⟩, ⟨11, 0⟩, ⟨13, 1⟩]))
      (evaluateBasicHand [⟨2, 0⟩, ⟨2, 1⟩, ⟨3, 2⟩, ⟨12, 3⟩, ⟨11, 0⟩]) ≥ 0
    ∧ (calculateHandRank [⟨2, 0⟩, ⟨2, 1⟩, ⟨3, 2⟩, ⟨12, 3⟩, ⟨11, 0⟩, ⟨13, 1⟩]).rank
      ≥ (calculateHandRank [⟨2, 0⟩, ⟨2, 1⟩, ⟨3, 2⟩, ⟨12, 3⟩, ⟨11, 0⟩]).rank :=
  C2_best_subset_basic_max _ (by decide) _ (by decide)


/-! ### Ledger and list lemmas -/

theorem dbFind_dbSet_found (db : Ledger) (uid : String) (amt a : Int)
    (h : dbFind db uid = some a) : dbFind (dbSet db uid amt) uid = some amt := by
  induction db with
  | nil => simp [dbFind] at h
  | cons e db ih =>
    by_cases he : (e.1 == uid) = true
    · simp [dbFind, dbSet, he]
    · simp only [dbFind, dbSet, if_neg he] at h ⊢
      exact ih h

theorem dbFind_dbSet_other (db : Ledger) (uid uid2 : String) (amt : Int)
    (h : uid2 ≠ uid) : dbFind (dbSet db uid amt) uid2 = dbFind db uid2 := by
  induction db with
  | nil => rfl
  | cons e db ih =>
    by_cases he : (e.1 == uid) = true
    · have he2 : ¬ ((e.1 == uid2) = true) := by
        simp only [beq_iff_eq] at he ⊢
        exact fun h2 => h (h2 ▸ he ▸ rfl)
      simp [dbFind, dbSet, he, he2, ih]
    · simp only [dbFind, dbSet, if_neg he]
      by_cases he2 : (e.1 == uid2) = true
      · rw [if_pos he2, if_pos he2]
      · rw [if_neg he2, if_neg he2]
        exact ih

theorem addMoneyToUser_found (db : Ledger) (uid : String) (amt a : Int)
    (h : dbFind db uid = some a) :
    addMoneyToUser db uid amt = dbSet db uid (a + amt) := by
  simp [addMoneyToUser, h]

theorem addMoneyToUser_none (db : Ledger) (uid : String) (amt : Int)
    (h : dbFind db uid = none) : addMoneyToUser db uid amt = db := by
  simp [addMoneyToUser, h]

theorem two_le_length_of_mem_ne {α : Type} {a b : α} {l : List α}
    (ha : a ∈ l) (hb : b ∈ l) (hne : a ≠ b) : 2 ≤ l.length := by
  cases l with
  | nil => cases ha
  | cons x xs =>
    cases xs with
    | nil =>
      simp only [List.mem_singleton] at ha hb
      exact absurd (ha.trans hb.symm) hne
    | cons y ys => simp only [List.length_cons]; omega

theorem filter_set_eq {α : Type} (f : α → Bool) (l : List α) :
    ∀ (i : Nat) (a b : α), l[i]? = some a → f a = false → f b = false →
      (l.set i b).filter f = l.filter f := by
  induction l with
  | nil => intro i a b h _ _; simp at h
  | cons x xs ih =>
    intro i a b h hfa hfb
    cases i with
    | zero =>
      simp only [List.getElem?_cons_zero, Option.some.injEq] at h
      have hfx : f x = false := by rw [h]; exact hfa
      simp [List.filter_cons, hfx, hfb]
    | succ n =>
      simp only [List.getElem?_cons_succ] at h
      simp only [List.set_cons_succ, List.filter_cons]
      rw [ih n a b h hfa hfb]

theorem length_filter_set_eq {α : Type} (f : α → Bool) (l : List α) :
    ∀ (i : Nat) (a b : α), l[i]? = some a → f a = f b →
      ((l.set i b).filter f).length = (l.filter f).length := by
  induction l with
  | nil => intro i a b h _; simp at h
  | cons x xs ih =>
    intro i a b h hf
    cases i with
    | zero =>
      simp only [List.getElem?_cons_zero, Option.some.injEq] at h
      have hfx : f x = f b := by rw [h]; exact hf
      simp only [List.set_cons_zero, List.filter_cons, hfx]
      cases hb : f b <;> simp [hb]
    | succ n =>
      simp only [List.getElem?_cons_succ] at h
      simp only [List.set_cons_succ, List.filter_cons]
      cases hfx : f x <;> simp [hfx, ih n a b h hf]

theorem addActionToHistory_only_history (g : Game) (pid : String) (k : ActionKind)
    (a t : Option Int) :
    (addActionToHistory g pid k a t).players = g.players
    ∧ (addActionToHistory g pid k a t).toActIds = g.toActIds
    ∧ (addActionToHistory g pid k a t).pot = g.pot
    ∧ (addActionToHistory g pid k a t).currentBet = g.currentBet
    ∧ (addActionToHistory g pid k a t).round = g.round
    ∧ (addActionToHistory g pid k a t).lastAggressorIndex = g.lastAggressorIndex
    ∧ (addActionToHistory g pid k a t).isActive = g.isActive := by
  unfold addActionToHistory
  split <;> simp

/-- When `toActIds` is non-empty and at least two players are unfolded,
`moveToNextPlayer` only passes the turn on. -/
theorem moveToNextPlayer_no_closure (s : State)
    (h2 : 2 ≤ (s.game.players.filter (fun p => !p.hasFolded)).length)
    (hne : s.game.toActIds ≠ []) :
    moveToNextPlayer s =
      { s with game :=
        { s.game with currentPlayerIndex := findNextActorIndex s.game s.game.currentPlayerIndex } } := by
  unfold moveToNextPlayer
  rw [if_neg (by simp; omega)]
  rw [if_neg (by simp [hne])]

/-! ### Claim theorems: rejected actions do not mutate -/

theorem makeCall_reject (pid : String) (s : State)
    (H : getActiveGame s = none
      ∨ ∃ cp, s.game.players[s.game.currentPlayerIndex]? = some cp
          ∧ (cp.id ≠ pid ∨ cp.hasFolded = true)) :
    (makeCall pid s).1.success = false ∧ (makeCall pid s).2 = s := by
  by_cases hact : (s.registered && s.game.isActive) = true
  · have hga : getActiveGame s = some s.game := by simp [getActiveGame, hact]
    rcases H with hnone | ⟨cp, hcp, hbad⟩
    · rw [hga] at hnone; cases hnone
    · rcases hbad with hid | hf
      · simp [makeCall, hga, hcp, hid]
      · by_cases hid : cp.id = pid
        · simp [makeCall, hga, hcp, hid, hf]
        · simp [makeCall, hga, hcp, hid]
  · have hga : getActiveGame s = none := by
      simp only [getActiveGame]
      rw [if_neg hact]
    simp [makeCall, hga]

theorem makeCheck_reject (pid : String) (s : State)
    (H : getActiveGame s = none
      ∨ ∃ cp, s.game.players[s.game.currentPlayerIndex]? = some cp
          ∧ (cp.id ≠ pid ∨ cp.hasFolded = true)) :
    (makeCheck pid s).1.success = false ∧ (makeCheck pid s).2 = s := by
  by_cases hact : (s.registered && s.game.isActive) = true
  · have hga : getActiveGame s = some s.game := by simp [getActiveGame, hact]
    rcases H with hnone | ⟨cp, hcp, hbad⟩
    · rw [hga] at hnone; cases hnone
    · rcases hbad with hid | hf
      · simp [makeCheck, hga, hcp, hid]
      · by_cases hid : cp.id = pid
        · simp [makeCheck, hga, hcp, hid, hf]
        · simp [makeCheck, hga, hcp, hid]
  · have hga : getActiveGame s = none := by
      simp only [getActiveGame]
      rw [if_neg hact]
    simp [makeCheck, hga]

theorem makeFold_reject (pid : String) (s : State)
    (H : getActiveGame s = none
      ∨ ∃ cp, s.game.players[s.game.currentPlayerIndex]? = some cp
          ∧ (cp.id ≠ pid ∨ cp.hasFolded = true)) :
    (makeFold pid s).1.success = false ∧ (makeFold pid s).2 = s := by
  by_cases hact : (s.registered && s.game.isActive) = true
  · have hga : getActiveGame s = some s.game := by simp [getActiveGame, hact]
    rcases H with hnone | ⟨cp, hcp, hbad⟩
    · rw [hga] at hnone; cases hnone
    · rcases hbad with hid | hf
      · simp [makeFold, hga, hcp, hid]
      · by_cases hid : cp.id = pid
        · simp [makeFold, hga, hcp, hid, hf]
        · simp [makeFold, hga, hcp, hid]
  · have hga : getActiveGame s = none := by
      simp only [getActiveGame]
      rw [if_neg hact]
    simp [makeFold, hga]

theorem makeRaise_reject (pid : String) (toTotal : Int) (s : State)
    (H : getActiveGame s = none
      ∨ ∃ cp, s.game.players[s.game.currentPlayerIndex]? = some cp
          ∧ (cp.id ≠ pid ∨ cp.hasFolded = true)) :
    (makeRaise pid toTotal s).1.success = false ∧ (makeRaise pid toTotal s).2 = s := by
  by_cases hact : (s.registered && s.game.isActive) = true
  · have hga : getActiveGame s = some s.game := by simp [getActiveGame, hact]
    rcases H with hnone | ⟨cp, hcp, hbad⟩
    · rw [hga] at hnone; cases hnone
    · rcases hbad with hid | hf
      · simp [makeRaise, hga, hcp, hid]
      · by_cases hid : cp.id = pid
        · simp [makeRaise, hga, hcp, hid, hf]
        · simp [makeRaise, hga, hcp, hid]
  · have hga : getActiveGame s = none := by
      simp only [getActiveGame]
      rw [if_neg hact]
    simp [makeRaise, hga]

theorem makeRaiseByBetAmount_reject (pid : String) (s : State)
    (H : getActiveGame s = none
      ∨ ∃ cp, s.game.players[s.game.currentPlayerIndex]? = some cp
          ∧ (cp.id ≠ pid ∨ cp.hasFolded = true)) :
    (makeRaiseByBetAmount pid s).1.success = false ∧ (makeRaiseByBetAmount pid s).2 = s := by
  by_cases hact : (s.registered && s.game.isActive) = true
  · have hga : getActiveGame s = some s.game := by simp [getActiveGame, hact]
    rcases H with hnone | ⟨cp, hcp, hbad⟩
    · rw [hga] at hnone; cases hnone
    · rcases hbad with hid | hf
      · simp [makeRaiseByBetAmount, hga, hcp, hid]
      · by_cases hid : cp.id = pid
        · simp [makeRaiseByBetAmount, hga, hcp, hid, hf]
        · simp [makeRaiseByBetAmount, hga, hcp, hid]
  · have hga : getActiveGame s = none := by
      simp only [getActiveGame]
      rw [if_neg hact]
    simp [makeRaiseByBetAmount, hga]

theorem makeRaiseByMultiplier_reject (pid : String) (multiplier : Int) (s : State)
    (H : getActiveGame s = none
      ∨ ∃ cp, s.game.players[s.game.currentPlayerIndex]? = some cp
          ∧ (cp.id ≠ pid ∨ cp.hasFolded = true)) :
    (makeRaiseByMultiplier pid multiplier s).1.success = false ∧ (makeRaiseByMultiplier pid multiplier s).2 = s := by
  by_cases hact : (s.registered && s.game.isActive) = true
  · have hga : getActiveGame s = some s.game := by simp [getActiveGame, hact]
    rcases H with hnone | ⟨cp, hcp, hbad⟩
    · rw [hga] at hnone; cases hnone
    · rcases hbad with hid | hf
      · simp [makeRaiseByMultiplier, hga, hcp, hid]
      · by_cases hid : cp.id = pid
        · simp [makeRaiseByMultiplier, hga, hcp, hid, hf]
        · simp [makeRaiseByMultiplier, hga, hcp, hid]
  · have hga : getActiveGame s = none := by
      simp only [getActiveGame]
      rw [if_neg hact]
    simp [makeRaiseByMultiplier, hga]

theorem makeRaiseByPot_reject (pid : String) (s : State)
    (H : getActiveGame s = none
      ∨ ∃ cp, s.game.players[s.game.currentPlayerIndex]? = some cp
          ∧ (cp.id ≠ pid ∨ cp.hasFolded = true)) :
    (makeRaiseByPot pid s).1.success = false ∧ (makeRaiseByPot pid s).2 = s := by
  by_cases hact : (s.registered && s.game.isActive) = true
  · have hga : getActiveGame s = some s.game := by simp [getActiveGame, hact]
    rcases H with hnone | ⟨cp, hcp, hbad⟩
    · rw [hga] at hnone; cases hnone
    · rcases hbad with hid | hf
      · simp [makeRaiseByPot, hga, hcp, hid]
      · by_cases hid : cp.id = pid
        · simp [makeRaiseByPot, hga, hcp, hid, hf]
        · simp [makeRaiseByPot, hga, hcp, hid]
  · have hga : getActiveGame s = none := by
      simp only [getActiveGame]
      rw [if_neg hact]
    simp [makeRaiseByPot, hga]

theorem makeAllIn_reject (pid : String) (s : State)
    (H : getActiveGame s = none
      ∨ ∃ cp, s.game.players[s.game.currentPlayerIndex]? = some cp
          ∧ (cp.id ≠ pid ∨ cp.hasFolded = true)) :
    (makeAllIn pid s).1.success = false ∧ (makeAllIn pid s).2 = s := by
  by_cases hact : (s.registered && s.game.isActive) = true
  · have hga : getActiveGame s = some s.game := by simp [getActiveGame, hact]
    rcases H with hnone | ⟨cp, hcp, hbad⟩
    · rw [hga] at hnone; cases hnone
    · rcases hbad with hid | hf
      · simp [makeAllIn, hga, hcp, hid]
      · by_cases hid : cp.id = pid
        · simp [makeAllIn, hga, hcp, hid, hf]
        · simp [makeAllIn, hga, hcp, hid]
  · have hga : getActiveGame s = none := by
      simp only [getActiveGame]
      rw [if_neg hact]
    simp [makeAllIn, hga]

/-- C3: every action operation invoked with no active game, by a player
other than the one at `currentPlayerIndex`, or by an already-folded
player, returns a failure result and leaves the whole state — game and
ledger — unchanged. -/
theorem C3_rejections_nonmutating (pid : String) (toTotal multiplier : Int) (s : State)
    (H : getActiveGame s = none
      ∨ ∃ cp, s.game.players[s.game.currentPlayerIndex]? = some cp
          ∧ (cp.id ≠ pid ∨ cp.hasFolded = true)) :
    ((makeCall pid s).1.success = false ∧ (makeCall pid s).2 = s)
    ∧ ((makeCheck pid s).1.success = false ∧ (makeCheck pid s).2 = s)
    ∧ ((makeFold pid s).1.success = false ∧ (makeFold pid s).2 = s)
    ∧ ((makeRaise pid toTotal s).1.success = false ∧ (makeRaise pid toTotal s).2 = s)
    ∧ ((makeRaiseByBetAmount pid s).1.success = false ∧ (makeRaiseByBetAmount pid s).2 = s)
    ∧ ((makeRaiseByMultiplier pid multiplier s).1.success = false
        ∧ (makeRaiseByMultiplier pid multiplier s).2 = s)
    ∧ ((makeRaiseByPot pid s).1.success = false ∧ (makeRaiseByPot pid s).2 = s)
    ∧ ((makeAllIn pid s).1.success = false ∧ (makeAllIn pid s).2 = s) :=
  ⟨makeCall_reject pid s H, makeCheck_reject pid s H, makeFold_reject pid s H,
    makeRaise_reject pid toTotal s H, makeRaiseByBetAmount_reject pid s H,
    makeRaiseByMultiplier_reject pid multiplier s H, makeRaiseByPot_reject pid s H,
    makeAllIn_reject pid s H⟩

/-- Witness for `C3_rejections_nonmutating`: a settled, unregistered game
rejects everything unchanged. -/
theorem C3_rejections_nonmutating_witness :
    ((makeCall "p1" exInactiveState).1.success = false
      ∧ (makeCall "p1" exInactiveState).2 = exInactiveState)
    ∧ ((makeCheck "p1" exInactiveState).1.success = false
      ∧ (makeCheck "p1" exInactiveState).2 = exInactiveState)
    ∧ ((makeFold "p1" exInactiveState).1.success = false
      ∧ (makeFold "p1" exInactiveState).2 = exInactiveState)
    ∧ ((makeRaise "p1" 20 exInactiveState).1.success = false
      ∧ (makeRaise "p1" 20 exInactiveState).2 = exInactiveState)
    ∧ ((makeRaiseByBetAmount "p1" exInactiveState).1.success = false
      ∧ (makeRaiseByBetAmount "p1" exInactiveState).2 = exInactiveState)
    ∧ ((makeRaiseByMultiplier "p1" 2 exInactiveState).1.success = false
      ∧ (makeRaiseByMultiplier "p1" 2 exInactiveState).2 = exInactiveState)
    ∧ ((makeRaiseByPot "p1" exInactiveState).1.success = false
      ∧ (makeRaiseByPot "p1" exInactiveState).2 = exInactiveState)
    ∧ ((makeAllIn "p1" exInactiveState).1.success = false
      ∧ (makeAllIn "p1" exInactiveState).2 = exInactiveState) :=
  C3_rejections_nonmutating "p1" 20 2 exInactiveState (Or.inl (by decide))


/-! ### Claim theorems: all-in -/

/-- C1 counterexample: an active game, the acting player non-folded with a
positive external balance of 5, but `game.currentBet` at 100: `makeAllIn`
returns failure and mutates nothing — a short all-in (balance strictly
below the amount needed to call) is rejected, not accepted. -/
theorem C1_counterexample :
    getActiveGame exShortAllInState = some exShortAllInState.game
    ∧ exShortAllInState.game.players[exShortAllInState.game.currentPlayerIndex]?
        = some (exPlayer "p1" 0 0)
    ∧ (exPlayer "p1" 0 0).hasFolded = false
    ∧ dbFind exShortAllInState.db "p1" = some 5
    ∧ (0 : Int) < 5
    ∧ 5 < exShortAllInState.game.currentBet - (exPlayer "p1" 0 0).currentBet
    ∧ (makeAllIn "p1" exShortAllInState).1.success = false
    ∧ (makeAllIn "p1" exShortAllInState).2 = exShortAllInState := by
  decide

/-- C1 (amended): `makeAllIn` by the current, non-folded player of an
active game succeeds only when the positive external balance also covers
the outstanding call (`currentBet − player.currentBet ≤ balance`); a short
all-in is rejected.  In the accepted cases — balance equal to, above, or
(with nothing left to call) below `game.currentBet` — the whole balance is
committed: the player's bet grows by the full balance, the balance is
zeroed, the pot grows by the balance, the player is marked `isAllIn`, and
in both the raising and the non-raising case `toActIds` becomes exactly
the non-folded players other than the actor. -/
theorem C1_allin_whole_balance (s : State) (pid : String) (cp : Player) (b : Int)
    (hreg : s.registered = true) (hact : s.game.isActive = true)
    (hcp : s.game.players[s.game.currentPlayerIndex]? = some cp)
    (hid : cp.id = pid) (hnf : cp.hasFolded = false)
    (hbal : dbFind s.db pid = some b) (hpos : 0 < b)
    (hcover : s.game.currentBet - cp.currentBet ≤ b)
    (hothers : s.game.players.filter (fun p => !p.hasFolded && p.id != pid) ≠ []) :
    (makeAllIn pid s).1.success = true
    ∧ ((makeAllIn pid s).2).game.toActIds
      = (s.game.players.filter (fun p => !p.hasFolded && p.id != pid)).map (fun p => p.id)
    ∧ ((makeAllIn pid s).2).game.players[s.game.currentPlayerIndex]?
      = some { cp with chips := 0, currentBet := cp.currentBet + b, isAllIn := true }
    ∧ ((makeAllIn pid s).2).game.pot = s.game.pot + b
    ∧ dbFind ((makeAllIn pid s).2).db pid = some 0 := by
  subst hid
  have hga : getActiveGame s = some s.game := by simp [getActiveGame, hreg, hact]
  have hmem : cp ∈ s.game.players := List.getElem?_mem hcp
  have hlt : s.game.currentPlayerIndex < s.game.players.length := by
    rcases List.getElem?_eq_some.mp hcp with ⟨h, _⟩; exact h
  set cpA : Player := { cp with chips := 0, currentBet := cp.currentBet + b, isAllIn := true }
    with hcpA
  have hfa : (fun p => !p.hasFolded && p.id != cp.id) cp = false := by simp [hnf]
  have hfb : (fun p => !p.hasFolded && p.id != cp.id) cpA = false := by simp [hcpA, hnf]
  have hfilter :
      (s.game.players.set s.game.currentPlayerIndex cpA).filter
          (fun p => !p.hasFolded && p.id != cp.id)
        = s.game.players.filter (fun p => !p.hasFolded && p.id != cp.id) :=
    filter_set_eq _ _ _ _ _ hcp hfa hfb
  have hflen :
      ((s.game.players.set s.game.currentPlayerIndex cpA).filter
          (fun p => !p.hasFolded)).length
        = (s.game.players.filter (fun p => !p.hasFolded)).length :=
    length_filter_set_eq _ _ _ _ _ hcp (by simp [hcpA, hnf])
  have h2 : 2 ≤ (s.game.players.filter (fun p => !p.hasFolded)).length := by
    obtain ⟨o, ho⟩ := List.exists_mem_of_ne_nil _ hothers
    rw [List.mem_filter] at ho
    obtain ⟨homem, hof⟩ := ho
    have hone : o.hasFolded = false ∧ o.id ≠ cp.id := by
      constructor
      · cases hhh : o.hasFolded <;> simp [hhh] at hof ⊢
      · intro hq; rw [hq] at hof; simp at hof
    refine two_le_length_of_mem_ne (a := o) (b := cp) ?_ ?_ ?_
    · rw [List.mem_filter]; exact ⟨homem, by simp [hone.1]⟩
    · rw [List.mem_filter]; exact ⟨hmem, by simp [hnf]⟩
    · intro hq; exact hone.2 (by rw [hq])
  have hdb0 : dbFind (dbZero s.db cp.id) cp.id = some 0 := by
    rw [dbZero, hbal]; exact dbFind_dbSet_found _ _ _ _ hbal
  simp only [makeAllIn, List.get?_eq_getElem?, hga, hcp, hbal]
  rw [if_neg (fun h : cp.id ≠ cp.id => h rfl)]
  rw [if_neg (by simp [hnf])]
  simp only [Option.getD_some]
  rw [if_neg (by omega)]
  rw [if_neg (by omega)]
  by_cases hb2 : cp.currentBet + b > s.game.currentBet
  · rw [if_pos hb2]
    rw [moveToNextPlayer_no_closure _
      (by simp only [setToActAfterRaise]; rw [hflen]; exact h2)
      (by simp only [setToActAfterRaise]; rw [hfilter]
          simp only [ne_eq, List.map_eq_nil_iff]; exact hothers)]
    refine ⟨rfl, ?_, ?_, ?_, hdb0⟩
    · rw [(addActionToHistory_only_history _ _ _ _ _).2.1]
      simp only [setToActAfterRaise]
      rw [hfilter]
    · rw [(addActionToHistory_only_history _ _ _ _ _).1]
      exact List.getElem?_set_self hlt
    · rw [(addActionToHistory_only_history _ _ _ _ _).2.2.1]
      simp [setToActAfterRaise]
  · rw [if_neg hb2]
    rw [moveToNextPlayer_no_closure _
      (by simp only [setToActAfterRaise]; rw [hflen]; exact h2)
      (by simp only [setToActAfterRaise]; rw [hfilter]
          simp only [ne_eq, List.map_eq_nil_iff]; exact hothers)]
    refine ⟨rfl, ?_, ?_, ?_, hdb0⟩
    · rw [(addActionToHistory_only_history _ _ _ _ _).2.1]
      simp only [setToActAfterRaise]
      rw [hfilter]
    · rw [(addActionToHistory_only_history _ _ _ _ _).1]
      exact List.getElem?_set_self hlt
    · rw [(addActionToHistory_only_history _ _ _ _ _).2.2.1]
      simp [setToActAfterRaise]

/-- Witness for `C1_allin_whole_balance`: player p1 with balance 100 calls
an outstanding bet of 10 all-in; the whole 100 is committed. -/
theorem C1_allin_whole_balance_witness :
    (makeAllIn "p1" exState).1.success = true
    ∧ ((makeAllIn "p1" exState).2).game.toActIds
      = (exState.game.players.filter (fun p => !p.hasFolded && p.id != "p1")).map (fun p => p.id)
    ∧ ((makeAllIn "p1" exState).2).game.players[exState.game.currentPlayerIndex]?
      = some { exPlayer "p1" 0 0 with
                chips := 0,
                currentBet := (exPlayer "p1" 0 0).currentBet + 100,
                isAllIn := true }
    ∧ ((makeAllIn "p1" exState).2).game.pot = exState.game.pot + 100
    ∧ dbFind ((makeAllIn "p1" exState).2).db "p1" = some 0 :=
  C1_allin_whole_balance exState "p1" (exPlayer "p1" 0 0) 100 rfl rfl (by decide) rfl rfl
    (by decide) (by decide) (by decide) (by decide)


/-! ### Raise helpers: toActIds reset on every successful raise -/

theorem two_le_active (base : List Player) (cp : Player) (pid : String)
    (hmem : cp ∈ base) (hnf : cp.hasFolded = false) (hid : cp.id = pid)
    (hothers : base.filter (fun p => !p.hasFolded && p.id != pid) ≠ []) :
    2 ≤ (base.filter (fun p => !p.hasFolded)).length := by
  obtain ⟨o, ho⟩ := List.exists_mem_of_ne_nil _ hothers
  rw [List.mem_filter] at ho
  obtain ⟨homem, hof⟩ := ho
  have hone : o.hasFolded = false ∧ o.id ≠ pid := by
    constructor
    · cases hhh : o.hasFolded <;> simp [hhh] at hof ⊢
    · intro hq; rw [hq] at hof; simp at hof
  refine two_le_length_of_mem_ne (a := o) (b := cp) ?_ ?_ ?_
  · rw [List.mem_filter]; exact ⟨homem, by simp [hone.1]⟩
  · rw [List.mem_filter]; exact ⟨hmem, by simp [hnf]⟩
  · intro hq; exact hone.2 (by rw [hq, hid])

theorem makeRaise_resets (s : State) (pid : String) (toTotal : Int)
    (hothers : s.game.players.filter (fun p => !p.hasFolded && p.id != pid) ≠ [])
    (hs : (makeRaise pid toTotal s).1.success = true) :
    (makeRaise pid toTotal s).2.game.toActIds
      = (s.game.players.filter (fun p => !p.hasFolded && p.id != pid)).map (fun p => p.id)
    ∧ (makeRaise pid toTotal s).2.game.currentBet = toTotal
    ∧ (makeRaise pid toTotal s).2.game.lastAggressorIndex = some s.game.currentPlayerIndex := by
  cases hga : getActiveGame s with
  | none => simp [makeRaise, hga] at hs
  | some g =>
    have hgeq : g = s.game := by
      unfold getActiveGame at hga
      split at hga
      · exact (Option.some.inj hga).symm
      · cases hga
    subst hgeq
    cases hcp : s.game.players[s.game.currentPlayerIndex]? with
    | none => simp [makeRaise, List.get?_eq_getElem?, hga, hcp] at hs
    | some cp =>
      by_cases hid : cp.id = pid
      · subst hid
        simp only [makeRaise, List.get?_eq_getElem?, hga, hcp] at hs ⊢
        rw [if_neg (fun h : cp.id ≠ cp.id => h rfl)] at hs ⊢
        by_cases hnf : cp.hasFolded = true
        · rw [if_pos hnf] at hs; simp at hs
        · rw [if_neg hnf] at hs ⊢
          by_cases hamt : toTotal - cp.currentBet ≤ 0 ∨ toTotal - cp.currentBet > cp.chips
          · rw [if_pos hamt] at hs; simp at hs
          · rw [if_neg hamt] at hs ⊢
            by_cases htot : toTotal ≤ s.game.currentBet
            · rw [if_pos htot] at hs; simp at hs
            · rw [if_neg htot] at hs ⊢
              by_cases hfund : (dbFind s.db cp.id).getD 0 < toTotal - cp.currentBet
              · rw [if_pos hfund] at hs; simp at hs
              · rw [if_neg hfund]
                by_cases hchips : (cp.chips == 0) = true
                · rw [if_pos hchips]
                  have hfilterX := filter_set_eq (fun p : Player => !p.hasFolded && p.id != cp.id) s.game.players
                      s.game.currentPlayerIndex cp { cp with currentBet := toTotal, isAllIn := true } hcp
                      (by simp) (by simp)
                  have hflenX := length_filter_set_eq (fun p : Player => !p.hasFolded) s.game.players
                      s.game.currentPlayerIndex cp { cp with currentBet := toTotal, isAllIn := true } hcp rfl
                  rw [moveToNextPlayer_no_closure _
                    (by rw [(addActionToHistory_only_history _ _ _ _ _).1]
                        simp only [setToActAfterRaise]
                        rw [hflenX]
                        exact two_le_active _ _ _ (List.getElem?_mem hcp) (by simpa using hnf) rfl hothers)
                    (by rw [(addActionToHistory_only_history _ _ _ _ _).2.1]
                        simp only [setToActAfterRaise]
                        rw [hfilterX]
                        simp only [ne_eq, List.map_eq_nil_iff]
                        exact hothers)]
                  refine ⟨?_, ?_, ?_⟩
                  · rw [(addActionToHistory_only_history _ _ _ _ _).2.1]
                    simp only [setToActAfterRaise]
                    rw [hfilterX]
                  · rw [(addActionToHistory_only_history _ _ _ _ _).2.2.2.1]
                    simp [setToActAfterRaise]
                  · rw [(addActionToHistory_only_history _ _ _ _ _).2.2.2.2.2.1]
                    simp [setToActAfterRaise]
                · rw [if_neg hchips]
                  have hfilterX := filter_set_eq (fun p : Player => !p.hasFolded && p.id != cp.id) s.game.players
                      s.game.currentPlayerIndex cp { cp with currentBet := toTotal } hcp
                      (by simp) (by simp)
                  have hflenX := length_filter_set_eq (fun p : Player => !p.hasFolded) s.game.players
                      s.game.currentPlayerIndex cp { cp with currentBet := toTotal } hcp rfl
                  rw [moveToNextPlayer_no_closure _
                    (by rw [(addActionToHistory_only_history _ _ _ _ _).1]
                        simp only [setToActAfterRaise]
                        rw [hflenX]
                        exact two_le_active _ _ _ (List.getElem?_mem hcp) (by simpa using hnf) rfl hothers)
                    (by rw [(addActionToHistory_only_history _ _ _ _ _).2.1]
                        simp only [setToActAfterRaise]
                        rw [hfilterX]
                        simp only [ne_eq, List.map_eq_nil_iff]
                        exact hothers)]
                  refine ⟨?_, ?_, ?_⟩
                  · rw [(addActionToHistory_only_history _ _ _ _ _).2.1]
                    simp only [setToActAfterRaise]
                    rw [hfilterX]
                  · rw [(addActionToHistory_only_history _ _ _ _ _).2.2.2.1]
                    simp [setToActAfterRaise]
                  · rw [(addActionToHistory_only_history _ _ _ _ _).2.2.2.2.2.1]
                    simp [setToActAfterRaise]
      · simp only [makeRaise, List.get?_eq_getElem?, hga, hcp] at hs
        rw [if_pos hid] at hs
        simp at hs

theorem makeRaiseByBetAmount_resets (s : State) (pid : String) 
    (hothers : s.game.players.filter (fun p => !p.hasFolded && p.id != pid) ≠ [])
    (hs : (makeRaiseByBetAmount pid s).1.success = true) :
    (makeRaiseByBetAmount pid s).2.game.toActIds
      = (s.game.players.filter (fun p => !p.hasFolded && p.id != pid)).map (fun p => p.id)
    ∧ (makeRaiseByBetAmount pid s).2.game.currentBet = s.game.currentBet + s.game.betAmount
    ∧ (makeRaiseByBetAmount pid s).2.game.lastAggressorIndex = some s.game.currentPlayerIndex := by
  cases hga : getActiveGame s with
  | none => simp [makeRaiseByBetAmount, hga] at hs
  | some g =>
    have hgeq : g = s.game := by
      unfold getActiveGame at hga
      split at hga
      · exact (Option.some.inj hga).symm
      · cases hga
    subst hgeq
    cases hcp : s.game.players[s.game.currentPlayerIndex]? with
    | none => simp [makeRaiseByBetAmount, List.get?_eq_getElem?, hga, hcp] at hs
    | some cp =>
      by_cases hid : cp.id = pid
      · subst hid
        simp only [makeRaiseByBetAmount, List.get?_eq_getElem?, hga, hcp] at hs ⊢
        rw [if_neg (fun h : cp.id ≠ cp.id => h rfl)] at hs ⊢
        by_cases hnf : cp.hasFolded = true
        · rw [if_pos hnf] at hs; simp at hs
        · rw [if_neg hnf] at hs ⊢
          by_cases hamt : s.game.currentBet + s.game.betAmount - cp.currentBet ≤ 0
          · rw [if_pos hamt] at hs; simp at hs
          · rw [if_neg hamt] at hs ⊢
            by_cases hfund : (dbFind s.db cp.id).getD 0 < s.game.currentBet + s.game.betAmount - cp.currentBet
            · rw [if_pos hfund] at hs; simp at hs
            · rw [if_neg hfund]
              have hfilterX := filter_set_eq (fun p : Player => !p.hasFolded && p.id != cp.id) s.game.players
                  s.game.currentPlayerIndex cp { cp with currentBet := s.game.currentBet + s.game.betAmount } hcp
                  (by simp) (by simp)
              have hflenX := length_filter_set_eq (fun p : Player => !p.hasFolded) s.game.players
                  s.game.currentPlayerIndex cp { cp with currentBet := s.game.currentBet + s.game.betAmount } hcp rfl
              rw [moveToNextPlayer_no_closure _
                (by rw [(addActionToHistory_only_history _ _ _ _ _).1]
                    simp only [setToActAfterRaise]
                    rw [hflenX]
                    exact two_le_active _ _ _ (List.getElem?_mem hcp) (by simpa using hnf) rfl hothers)
                (by rw [(addActionToHistory_only_history _ _ _ _ _).2.1]
                    simp only [setToActAfterRaise]
                    rw [hfilterX]
                    simp only [ne_eq, List.map_eq_nil_iff]
                    exact hothers)]
              refine ⟨?_, ?_, ?_⟩
              · rw [(addActionToHistory_only_history _ _ _ _ _).2.1]
                simp only [setToActAfterRaise]
                rw [hfilterX]
              · rw [(addActionToHistory_only_history _ _ _ _ _).2.2.2.1]
                simp [setToActAfterRaise]
              · rw [(addActionToHistory_only_history _ _ _ _ _).2.2.2.2.2.1]
                simp [setToActAfterRaise]
      · simp only [makeRaiseByBetAmount, List.get?_eq_getElem?, hga, hcp] at hs
        rw [if_pos hid] at hs
        simp at hs

theorem makeRaiseByMultiplier_resets (s : State) (pid : String) (multiplier : Int) 
    (hothers : s.game.players.filter (fun p => !p.hasFolded && p.id != pid) ≠ [])
    (hs : (makeRaiseByMultiplier pid multiplier s).1.success = true) :
    (makeRaiseByMultiplier pid multiplier s).2.game.toActIds
      = (s.game.players.filter (fun p => !p.hasFolded && p.id != pid)).map (fun p => p.id)
    ∧ (makeRaiseByMultiplier pid multiplier s).2.game.currentBet = s.game.currentBet + max 0 (s.game.betAmount * multiplier)
    ∧ (makeRaiseByMultiplier pid multiplier s).2.game.lastAggressorIndex = some s.game.currentPlayerIndex := by
  cases hga : getActiveGame s with
  | none => simp [makeRaiseByMultiplier, hga] at hs
  | some g =>
    have hgeq : g = s.game := by
      unfold getActiveGame at hga
      split at hga
      · exact (Option.some.inj hga).symm
      · cases hga
    subst hgeq
    cases hcp : s.game.players[s.game.currentPlayerIndex]? with
    | none => simp [makeRaiseByMultiplier, List.get?_eq_getElem?, hga, hcp] at hs
    | some cp =>
      by_cases hid : cp.id = pid
      · subst hid
        simp only [makeRaiseByMultiplier, List.get?_eq_getElem?, hga, hcp] at hs ⊢
        rw [if_neg (fun h : cp.id ≠ cp.id => h rfl)] at hs ⊢
        by_cases hnf : cp.hasFolded = true
        · rw [if_pos hnf] at hs; simp at hs
        · rw [if_neg hnf] at hs ⊢
          by_cases hamt : s.game.currentBet + max 0 (s.game.betAmount * multiplier) - cp.currentBet ≤ 0
          · rw [if_pos hamt] at hs; simp at hs
          · rw [if_neg hamt] at hs ⊢
            by_cases hfund : (dbFind s.db cp.id).getD 0 < s.game.currentBet + max 0 (s.game.betAmount * multiplier) - cp.currentBet
            · rw [if_pos hfund] at hs; simp at hs
            · rw [if_neg hfund]
              have hfilterX := filter_set_eq (fun p : Player => !p.hasFolded && p.id != cp.id) s.game.players
                  s.game.currentPlayerIndex cp { cp with currentBet := s.game.currentBet + max 0 (s.game.betAmount * multiplier) } hcp
                  (by simp) (by simp)
              have hflenX := length_filter_set_eq (fun p : Player => !p.hasFolded) s.game.players
                  s.game.currentPlayerIndex cp { cp with currentBet := s.game.currentBet + max 0 (s.game.betAmount * multiplier) } hcp rfl
              rw [moveToNextPlayer_no_closure _
                (by rw [(addActionToHistory_only_history _ _ _ _ _).1]
                    simp only [setToActAfterRaise]
                    rw [hflenX]
                    exact two_le_active _ _ _ (List.getElem?_mem hcp) (by simpa using hnf) rfl hothers)
                (by rw [(addActionToHistory_only_history _ _ _ _ _).2.1]
                    simp only [setToActAfterRaise]
                    rw [hfilterX]
                    simp only [ne_eq, List.map_eq_nil_iff]
                    exact hothers)]
              refine ⟨?_, ?_, ?_⟩
              · rw [(addActionToHistory_only_history _ _ _ _ _).2.1]
                simp only [setToActAfterRaise]
                rw [hfilterX]
              · rw [(addActionToHistory_only_history _ _ _ _ _).2.2.2.1]
                simp [setToActAfterRaise]
              · rw [(addActionToHistory_only_history _ _ _ _ _).2.2.2.2.2.1]
                simp [setToActAfterRaise]
      · simp only [makeRaiseByMultiplier, List.get?_eq_getElem?, hga, hcp] at hs
        rw [if_pos hid] at hs
        simp at hs

theorem makeRaiseByPot_resets (s : State) (pid : String) 
    (hothers : s.game.players.filter (fun p => !p.hasFolded && p.id != pid) ≠ [])
    (hs : (makeRaiseByPot pid s).1.success = true) :
    (makeRaiseByPot pid s).2.game.toActIds
      = (s.game.players.filter (fun p => !p.hasFolded && p.id != pid)).map (fun p => p.id)
    ∧ (makeRaiseByPot pid s).2.game.currentBet = s.game.currentBet + max s.game.betAmount s.game.pot
    ∧ (makeRaiseByPot pid s).2.game.lastAggressorIndex = some s.game.currentPlayerIndex := by
  cases hga : getActiveGame s with
  | none => simp [makeRaiseByPot, hga] at hs
  | some g =>
    have hgeq : g = s.game := by
      unfold getActiveGame at hga
      split at hga
      · exact (Option.some.inj hga).symm
      · cases hga
    subst hgeq
    cases hcp : s.game.players[s.game.currentPlayerIndex]? with
    | none => simp [makeRaiseByPot, List.get?_eq_getElem?, hga, hcp] at hs
    | some cp =>
      by_cases hid : cp.id = pid
      · subst hid
        simp only [makeRaiseByPot, List.get?_eq_getElem?, hga, hcp] at hs ⊢
        rw [if_neg (fun h : cp.id ≠ cp.id => h rfl)] at hs ⊢
        by_cases hnf : cp.hasFolded = true
        · rw [if_pos hnf] at hs; simp at hs
        · rw [if_neg hnf] at hs ⊢
          by_cases hamt : s.game.currentBet + max s.game.betAmount s.game.pot - cp.currentBet ≤ 0
          · rw [if_pos hamt] at hs; simp at hs
          · rw [if_neg hamt] at hs ⊢
            by_cases hfund : (dbFind s.db cp.id).getD 0 < s.game.currentBet + max s.game.betAmount s.game.pot - cp.currentBet
            · rw [if_pos hfund] at hs; simp at hs
            · rw [if_neg hfund]
              have hfilterX := filter_set_eq (fun p : Player => !p.hasFolded && p.id != cp.id) s.game.players
                  s.game.currentPlayerIndex cp { cp with currentBet := s.game.currentBet + max s.game.betAmount s.game.pot } hcp
                  (by simp) (by simp)
              have hflenX := length_filter_set_eq (fun p : Player => !p.hasFolded) s.game.players
                  s.game.currentPlayerIndex cp { cp with currentBet := s.game.currentBet + max s.game.betAmount s.game.pot } hcp rfl
              rw [moveToNextPlayer_no_closure _
                (by rw [(addActionToHistory_only_history _ _ _ _ _).1]
                    simp only [setToActAfterRaise]
                    rw [hflenX]
                    exact two_le_active _ _ _ (List.getElem?_mem hcp) (by simpa using hnf) rfl hothers)
                (by rw [(addActionToHistory_only_history _ _ _ _ _).2.1]
                    simp only [setToActAfterRaise]
                    rw [hfilterX]
                    simp only [ne_eq, List.map_eq_nil_iff]
                    exact hothers)]
              refine ⟨?_, ?_, ?_⟩
              · rw [(addActionToHistory_only_history _ _ _ _ _).2.1]
                simp only [setToActAfterRaise]
                rw [hfilterX]
              · rw [(addActionToHistory_only_history _ _ _ _ _).2.2.2.1]
                simp [setToActAfterRaise]
              · rw [(addActionToHistory_only_history _ _ _ _ _).2.2.2.2.2.1]
                simp [setToActAfterRaise]
      · simp only [makeRaiseByPot, List.get?_eq_getElem?, hga, hcp] at hs
        rw [if_pos hid] at hs
        simp at hs



/-- C5: after any successful raise — raise-to-total, raise by the unit
stake, raise by a multiplier, or pot-sized raise — by player P,
`toActIds` equals exactly the non-folded players other than P (regardless
of who had already acted), `game.currentBet` equals the new total X, and
P's seat is recorded as the last aggressor.  (The hypothesis that some
other non-folded player exists rules out the degenerate sole-player
raise, where the hand would instead settle at once.) -/
theorem C5_raise_resets_toact (s : State) (pid : String) (toTotal multiplier : Int)
    (hothers : s.game.players.filter (fun p => !p.hasFolded && p.id != pid) ≠ []) :
    ((makeRaise pid toTotal s).1.success = true →
      (makeRaise pid toTotal s).2.game.toActIds
        = (s.game.players.filter (fun p => !p.hasFolded && p.id != pid)).map (fun p => p.id)
      ∧ (makeRaise pid toTotal s).2.game.currentBet = toTotal
      ∧ (makeRaise pid toTotal s).2.game.lastAggressorIndex = some s.game.currentPlayerIndex)
    ∧ ((makeRaiseByBetAmount pid s).1.success = true →
      (makeRaiseByBetAmount pid s).2.game.toActIds
        = (s.game.players.filter (fun p => !p.hasFolded && p.id != pid)).map (fun p => p.id)
      ∧ (makeRaiseByBetAmount pid s).2.game.currentBet = s.game.currentBet + s.game.betAmount
      ∧ (makeRaiseByBetAmount pid s).2.game.lastAggressorIndex = some s.game.currentPlayerIndex)
    ∧ ((makeRaiseByMultiplier pid multiplier s).1.success = true →
      (makeRaiseByMultiplier pid multiplier s).2.game.toActIds
        = (s.game.players.filter (fun p => !p.hasFolded && p.id != pid)).map (fun p => p.id)
      ∧ (makeRaiseByMultiplier pid multiplier s).2.game.currentBet
        = s.game.currentBet + max 0 (s.game.betAmount * multiplier)
      ∧ (makeRaiseByMultiplier pid multiplier s).2.game.lastAggressorIndex
        = some s.game.currentPlayerIndex)
    ∧ ((makeRaiseByPot pid s).1.success = true →
      (makeRaiseByPot pid s).2.game.toActIds
        = (s.game.players.filter (fun p => !p.hasFolded && p.id != pid)).map (fun p => p.id)
      ∧ (makeRaiseByPot pid s).2.game.currentBet
        = s.game.currentBet + max s.game.betAmount s.game.pot
      ∧ (makeRaiseByPot pid s).2.game.lastAggressorIndex = some s.game.currentPlayerIndex) :=
  ⟨makeRaise_resets s pid toTotal hothers,
    makeRaiseByBetAmount_resets s pid hothers,
    makeRaiseByMultiplier_resets s pid multiplier hothers,
    makeRaiseByPot_resets s pid hothers⟩

/-- Witness for `C5_raise_resets_toact`: on `exRaiseState` every raise
variant succeeds and resets `toActIds` to the lone opponent. -/
theorem C5_raise_resets_toact_witness :
    ((makeRaise "p1" 20 exRaiseState).2.game.toActIds
        = (exRaiseState.game.players.filter
            (fun p => !p.hasFolded && p.id != "p1")).map (fun p => p.id)
      ∧ (makeRaise "p1" 20 exRaiseState).2.game.currentBet = 20
      ∧ (makeRaise "p1" 20 exRaiseState).2.game.lastAggressorIndex
        = some exRaiseState.game.currentPlayerIndex)
    ∧ ((makeRaiseByBetAmount "p1" exRaiseState).2.game.toActIds
        = (exRaiseState.game.players.filter
            (fun p => !p.hasFolded && p.id != "p1")).map (fun p => p.id)
      ∧ (makeRaiseByBetAmount "p1" exRaiseState).2.game.currentBet
        = exRaiseState.game.currentBet + exRaiseState.game.betAmount
      ∧ (makeRaiseByBetAmount "p1" exRaiseState).2.game.lastAggressorIndex
        = some exRaiseState.game.currentPlayerIndex)
    ∧ ((makeRaiseByMultiplier "p1" 2 exRaiseState).2.game.toActIds
        = (exRaiseState.game.players.filter
            (fun p => !p.hasFolded && p.id != "p1")).map (fun p => p.id)
      ∧ (makeRaiseByMultiplier "p1" 2 exRaiseState).2.game.currentBet
        = exRaiseState.game.currentBet + max 0 (exRaiseState.game.betAmount * 2)
      ∧ (makeRaiseByMultiplier "p1" 2 exRaiseState).2.game.lastAggressorIndex
        = some exRaiseState.game.currentPlayerIndex)
    ∧ ((makeRaiseByPot "p1" exRaiseState).2.game.toActIds
        = (exRaiseState.game.players.filter
            (fun p => !p.hasFolded && p.id != "p1")).map (fun p => p.id)
      ∧ (makeRaiseByPot "p1" exRaiseState).2.game.currentBet
        = exRaiseState.game.currentBet + max exRaiseState.game.betAmount exRaiseState.game.pot
      ∧ (makeRaiseByPot "p1" exRaiseState).2.game.lastAggressorIndex
        = some exRaiseState.game.currentPlayerIndex) :=
  ⟨(C5_raise_resets_toact exRaiseState "p1" 20 2 (by decide)).1 (by decide),
    (C5_raise_resets_toact exRaiseState "p1" 20 2 (by decide)).2.1 (by decide),
    (C5_raise_resets_toact exRaiseState "p1" 20 2 (by decide)).2.2.1 (by decide),
    (C5_raise_resets_toact exRaiseState "p1" 20 2 (by decide)).2.2.2 (by decide)⟩


/-! ### Fold-out termination -/

theorem addActionToHistory_players (g : Game) (pid : String) (k : ActionKind)
    (a t : Option Int) : (addActionToHistory g pid k a t).players = g.players :=
  (addActionToHistory_only_history g pid k a t).1

theorem addActionToHistory_pot (g : Game) (pid : String) (k : ActionKind)
    (a t : Option Int) : (addActionToHistory g pid k a t).pot = g.pot :=
  (addActionToHistory_only_history g pid k a t).2.2.1

/-- The payout loop on a singleton winner list credits exactly that id,
provided some player carries it. -/
theorem creditFirstWinner_single (db : Ledger) (players : List Player) (wid : String)
    (amt : Int) (h : ∃ p ∈ players, p.id = wid) :
    creditFirstWinner db players [wid] amt = addMoneyToUser db wid amt := by
  induction players with
  | nil => obtain ⟨p, hp, _⟩ := h; cases hp
  | cons q rest ih =>
    by_cases hq : (([wid] : List String).contains q.id) = true
    · rw [creditFirstWinner, if_pos hq]
      have : q.id = wid := by simpa using hq
      rw [this]
    · rw [creditFirstWinner, if_neg hq]
      apply ih
      obtain ⟨p, hp, hpid⟩ := h
      rcases List.mem_cons.mp hp with rfl | hrest
      · exact absurd (by simp [hpid]) hq
      · exact ⟨p, hrest, hpid⟩

/-- With exactly one non-folded player left, `moveToNextPlayer` goes to
the immediate award. -/
theorem moveToNextPlayer_foldout (s : State) (w : Player)
    (hw : s.game.players.filter (fun p => !p.hasFolded) = [w]) :
    moveToNextPlayer s = awardPotAndRotate [w.id] s := by
  simp only [moveToNextPlayer]
  rw [hw]
  rw [if_pos (show (([w] : List Player).length == 1) = true from rfl)]
  rfl

/-- With exactly one non-folded player left, `checkAndContinueGame` of a
registered game goes to the immediate award. -/
theorem checkAndContinueGame_foldout (s : State) (w : Player)
    (hreg : s.registered = true)
    (hw : s.game.players.filter (fun p => !p.hasFolded) = [w]) :
    checkAndContinueGame s = awardPotAndRotate [w.id] s := by
  simp only [checkAndContinueGame]
  rw [if_neg (by simp [hreg])]
  rw [hw]
  rw [if_pos (show (([w] : List Player).length == 1) = true from rfl)]
  rfl

/-- A registered single-winner award credits the whole pot to that player
and resets the hand. -/
theorem awardPot_single (s : State) (w : Player)
    (hreg : s.registered = true) (hmem : w ∈ s.game.players) :
    awardPotAndRotate [w.id] s
      = resetForNextHand { s with db := addMoneyToUser s.db w.id s.game.pot } := by
  simp only [awardPotAndRotate]
  rw [if_neg (by simp)]
  rw [if_neg (by simp [hreg])]
  rw [creditFirstWinner_single _ _ _ _ ⟨w, hmem, rfl⟩]

/-- C6: a successful fold (first conjunct) or a forced auto-fold on the
insufficient-funds grace timeout (second conjunct) that leaves exactly one
non-folded player ends the hand at once in that player's favor: the whole
pot is credited to the survivor's ledger row and the hand is reset —
independent of the round (no closed river required) and without any hand
evaluation (the payout formula does not inspect hole or board cards). -/
theorem C6_foldout_awards_pot (s : State) (pid : String) (w : Player) :
    (∀ cp : Player, s.registered = true → s.game.isActive = true →
      s.game.players[s.game.currentPlayerIndex]? = some cp → cp.id = pid →
      cp.hasFolded = false →
      (s.game.players.set s.game.currentPlayerIndex
          { cp with hasFolded := true }).filter (fun p => !p.hasFolded) = [w] →
      (makeFold pid s).1.success = true
      ∧ (makeFold pid s).2.db = addMoneyToUser s.db w.id s.game.pot
      ∧ (makeFold pid s).2.game.isActive = false
      ∧ (makeFold pid s).2.game.pot = 0
      ∧ (makeFold pid s).2.game.round = Round.waiting
      ∧ (makeFold pid s).2.registered = false)
    ∧ (∀ (idx : Nat) (p : Player), s.registered = true →
      s.game.players.findIdx? (fun q => q.id == pid) = some idx →
      s.game.players[idx]? = some p → p.hasFolded = false →
      (dbFind s.db pid).getD 0 < s.game.currentBet - p.currentBet →
      (s.game.players.set idx { p with hasFolded := true }).filter
          (fun q => !q.hasFolded) = [w] →
      (handleInsufficientFundsTimeout pid s).db = addMoneyToUser s.db w.id s.game.pot
      ∧ (handleInsufficientFundsTimeout pid s).game.isActive = false
      ∧ (handleInsufficientFundsTimeout pid s).game.pot = 0
      ∧ (handleInsufficientFundsTimeout pid s).registered = false) := by
  constructor
  · intro cp hreg hact hcp hid hnf hfold
    subst hid
    have hga : getActiveGame s = some s.game := by simp [getActiveGame, hreg, hact]
    simp only [makeFold, List.get?_eq_getElem?, hga, hcp]
    rw [if_neg (fun h : cp.id ≠ cp.id => h rfl)]
    rw [if_neg (by simp [hnf])]
    rw [moveToNextPlayer_foldout _ w
      (by rw [addActionToHistory_players]; simp only [removeFromToAct]; exact hfold)]
    rw [awardPot_single _ w (by exact hreg)
      (by rw [addActionToHistory_players]
          simp only [removeFromToAct]
          exact List.mem_of_mem_filter
            (by rw [hfold]; exact List.mem_singleton_self w))]
    refine ⟨rfl, ?_, ?_, ?_, ?_, ?_⟩
    · simp [resetForNextHand, removeFromToAct, addActionToHistory_pot]
    · simp [resetForNextHand]
    · simp [resetForNextHand]
    · simp [resetForNextHand]
    · simp [resetForNextHand]
  · intro idx p hreg hfind hget hnotf hshort hfold
    simp only [handleInsufficientFundsTimeout, List.get?_eq_getElem?, hfind, hget]
    rw [if_neg (by simp [hreg])]
    rw [if_neg (by simp [hnotf])]
    rw [if_pos hshort]
    rw [checkAndContinueGame_foldout _ w (by exact hreg)
      (by simp only [removeFromToAct]; exact hfold)]
    rw [awardPot_single _ w (by exact hreg)
      (by simp only [removeFromToAct]
          exact List.mem_of_mem_filter
            (by rw [hfold]; exact List.mem_singleton_self w))]
    refine ⟨?_, ?_, ?_, ?_⟩
    · simp [resetForNextHand, removeFromToAct]
    · simp [resetForNextHand]
    · simp [resetForNextHand]
    · simp [resetForNextHand]

/-- Witness for `C6_foldout_awards_pot`: p1 folds heads-up and p2 takes
the pot of 20 without a showdown during preflop. -/
theorem C6_foldout_awards_pot_witness :
    (makeFold "p1" exState).1.success = true
    ∧ (makeFold "p1" exState).2.db
      = addMoneyToUser exState.db (exPlayer "p2" 1 10).id exState.game.pot
    ∧ (makeFold "p1" exState).2.game.isActive = false
    ∧ (makeFold "p1" exState).2.game.pot = 0
    ∧ (makeFold "p1" exState).2.game.round = Round.waiting
    ∧ (makeFold "p1" exState).2.registered = false :=
  (C6_foldout_awards_pot exState "p1" (exPlayer "p2" 1 10)).1 (exPlayer "p1" 0 0)
    rfl rfl (by decide) rfl rfl (by decide)


/-! ### Showdown settlement -/

theorem addMoneyToUser_other (db : Ledger) (uid uid2 : String) (amt : Int)
    (h : uid2 ≠ uid) :
    dbFind (addMoneyToUser db uid amt) uid2 = dbFind db uid2 := by
  unfold addMoneyToUser
  cases hf : dbFind db uid with
  | none => rfl
  | some a => exact dbFind_dbSet_other db uid uid2 (a + amt) h

theorem rankedInsert_length (a : RankedEntry) (l : List RankedEntry) :
    (rankedInsert a l).length = l.length + 1 := by
  induction l with
  | nil => rfl
  | cons b l ih =>
    unfold rankedInsert
    split
    · rfl
    · simp [ih]

theorem rankedSort_length (l : List RankedEntry) :
    (rankedSort l).length = l.length := by
  induction l with
  | nil => rfl
  | cons a l ih => simp [rankedSort, rankedInsert_length, ih]

theorem rankedInsert_mem (x a : RankedEntry) (l : List RankedEntry)
    (h : x ∈ rankedInsert a l) : x = a ∨ x ∈ l := by
  induction l with
  | nil => simpa [rankedInsert] using h
  | cons b l ih =>
    unfold rankedInsert at h
    split at h
    · simpa using h
    · rcases List.mem_cons.mp h with rfl | h2
      · simp
      · rcases ih h2 with h3 | h3
        · exact Or.inl h3
        · exact Or.inr (List.mem_cons_of_mem _ h3)

theorem rankedSort_mem (x : RankedEntry) (l : List RankedEntry)
    (h : x ∈ rankedSort l) : x ∈ l := by
  induction l with
  | nil => simpa [rankedSort] using h
  | cons a l ih =>
    rcases rankedInsert_mem x a (rankedSort l) h with rfl | h2
    · exact List.mem_cons_self _ _
    · exact List.mem_cons_of_mem _ (ih h2)

/-- C7: at a showdown of a registered game with at least two non-folded
contenders, the settlement credits the entire pot to exactly one player —
the first of the ranked ordering — and every other user's balance is
untouched; this holds with no hypothesis excluding ties, so exactly equal
top hands still produce a single winner and never a split. -/
theorem C7_showdown_single_winner (s : State)
    (hreg : s.registered = true)
    (hcont : 2 ≤ (s.game.players.filter (fun p => !p.hasFolded)).length) :
    (handleShowdown s).db
      = addMoneyToUser s.db
          ((rankContenders (s.game.players.filter (fun p => !p.hasFolded))
              s.game.board).headD ⟨dummyPlayer, ⟨0, []⟩⟩).player.id
          s.game.pot
    ∧ (∀ uid : String,
        uid ≠ ((rankContenders (s.game.players.filter (fun p => !p.hasFolded))
            s.game.board).headD ⟨dummyPlayer, ⟨0, []⟩⟩).player.id →
        dbFind (handleShowdown s).db uid = dbFind s.db uid)
    ∧ (handleShowdown s).game.pot = 0
    ∧ (handleShowdown s).game.isActive = false
    ∧ (handleShowdown s).registered = false := by
  have hne : ¬ ((s.game.players.filter (fun p => !p.hasFolded)).isEmpty = true) := by
    rw [List.isEmpty_iff_length_eq_zero]
    omega
  have hrlen : (rankContenders (s.game.players.filter (fun p => !p.hasFolded))
      s.game.board).length
      = (s.game.players.filter (fun p => !p.hasFolded)).length := by
    unfold rankContenders
    rw [rankedSort_length, List.length_map]
  have hrne : rankContenders (s.game.players.filter (fun p => !p.hasFolded))
      s.game.board ≠ [] := by
    intro h
    rw [h] at hrlen
    simp at hrlen
    omega
  have hhead : ((rankContenders (s.game.players.filter (fun p => !p.hasFolded))
      s.game.board).headD ⟨dummyPlayer, ⟨0, []⟩⟩)
      ∈ rankContenders (s.game.players.filter (fun p => !p.hasFolded)) s.game.board := by
    cases h : rankContenders (s.game.players.filter (fun p => !p.hasFolded)) s.game.board with
    | nil => exact absurd h hrne
    | cons a l => simp
  have hwmem : ((rankContenders (s.game.players.filter (fun p => !p.hasFolded))
      s.game.board).headD ⟨dummyPlayer, ⟨0, []⟩⟩).player ∈ s.game.players := by
    have h1 := rankedSort_mem _ _ hhead
    rw [List.mem_map] at h1
    obtain ⟨p, hp, hpe⟩ := h1
    rw [← hpe]
    exact List.mem_of_mem_filter hp
  simp only [handleShowdown]
  rw [if_neg hne]
  rw [awardPot_single _ _ hreg hwmem]
  refine ⟨?_, ?_, ?_, ?_, ?_⟩
  · simp [resetForNextHand]
  · intro uid huid
    simp only [resetForNextHand]
    exact addMoneyToUser_other _ _ _ _ huid
  · simp [resetForNextHand]
  · simp [resetForNextHand]
  · simp [resetForNextHand]

/-- Witness for `C7_showdown_single_winner`: in `exState` both contenders
hold equal-ranked hands (same hole values), yet the whole pot of 20 goes
to the single first-ranked player and p2's balance is unchanged. -/
theorem C7_showdown_single_winner_witness :
    compareHands
      (calculateHandRank ((exPlayer "p1" 0 0).hole ++ exState.game.board))
      (calculateHandRank ((exPlayer "p2" 1 10).hole ++ exState.game.board)) = 0
    ∧ (handleShowdown exState).db
      = addMoneyToUser exState.db
          ((rankContenders (exState.game.players.filter (fun p => !p.hasFolded))
              exState.game.board).headD ⟨dummyPlayer, ⟨0, []⟩⟩).player.id
          exState.game.pot
    ∧ dbFind (handleShowdown exState).db "p2" = dbFind exState.db "p2"
    ∧ (handleShowdown exState).game.pot = 0 :=
  ⟨by decide,
    (C7_showdown_single_winner exState rfl (by decide)).1,
    (C7_showdown_single_winner exState rfl (by decide)).2.1 "p2" (by decide),
    (C7_showdown_single_winner exState rfl (by decide)).2.2.1⟩


/-! ### Round closure -/

theorem advance_from_preflop (s : State)
    (hround : s.game.round = Round.preflop)
    (hdeck : 4 ≤ s.game.deck.length) :
    (advanceToNextRound s).game.round = Round.flop
    ∧ (advanceToNextRound s).game.board.length = s.game.board.length + 3
    ∧ (advanceToNextRound s).game.toActIds
      = (s.game.players.filter (fun p => !p.hasFolded)).map (fun p => p.id)
    ∧ (advanceToNextRound s).game.pot = s.game.pot := by
  rcases hdk : s.game.deck with _ | ⟨a, _ | ⟨b, _ | ⟨c, _ | ⟨d, t⟩⟩⟩⟩ <;>
    rw [hdk] at hdeck <;> simp at hdeck
  simp only [advanceToNextRound, hround, hdk, burnOne, dealToBoard, setToActForNewRound]
  simp

theorem advance_from_flop (s : State)
    (hround : s.game.round = Round.flop)
    (hdeck : 2 ≤ s.game.deck.length) :
    (advanceToNextRound s).game.round = Round.turn
    ∧ (advanceToNextRound s).game.board.length = s.game.board.length + 1
    ∧ (advanceToNextRound s).game.toActIds
      = (s.game.players.filter (fun p => !p.hasFolded)).map (fun p => p.id)
    ∧ (advanceToNextRound s).game.pot = s.game.pot := by
  rcases hdk : s.game.deck with _ | ⟨a, _ | ⟨b, t⟩⟩ <;>
    rw [hdk] at hdeck <;> simp at hdeck
  simp only [advanceToNextRound, hround, hdk, burnOne, dealToBoard, setToActForNewRound]
  simp

theorem advance_from_turn (s : State)
    (hround : s.game.round = Round.turn)
    (hdeck : 2 ≤ s.game.deck.length) :
    (advanceToNextRound s).game.round = Round.river
    ∧ (advanceToNextRound s).game.board.length = s.game.board.length + 1
    ∧ (advanceToNextRound s).game.toActIds
      = (s.game.players.filter (fun p => !p.hasFolded)).map (fun p => p.id)
    ∧ (advanceToNextRound s).game.pot = s.game.pot := by
  rcases hdk : s.game.deck with _ | ⟨a, _ | ⟨b, t⟩⟩ <;>
    rw [hdk] at hdeck <;> simp at hdeck
  simp only [advanceToNextRound, hround, hdk, burnOne, dealToBoard, setToActForNewRound]
  simp

/-- `revealRemainingBoard` from an untouched board opens all five
community cards and lands in `river`. -/
theorem reveal_full_board (g : Game)
    (hb : g.board = []) (hr : g.round ≠ Round.showdown)
    (hd : 8 ≤ g.deck.length) :
    (revealRemainingBoard g).board.length = 5
    ∧ (revealRemainingBoard g).round = Round.river := by
  rcases hdk : g.deck with
      _ | ⟨a, _ | ⟨b, _ | ⟨c, _ | ⟨d, _ | ⟨e, _ | ⟨f, _ | ⟨x, _ | ⟨y, t⟩⟩⟩⟩⟩⟩⟩⟩ <;>
    rw [hdk] at hd <;> simp at hd
  simp only [revealRemainingBoard, revealFlopStage, revealTurnStage, revealRiverStage,
    revealFinal, hb, hdk, burnOne, dealToBoard]
  simp [hr]

/-- C4: with at least two live players, the betting round closes exactly
when `toActIds` is empty and every non-folded player's bet matches
`game.currentBet`.  On closure: with an all-in player the hand jumps to
the all-in showdown; otherwise a closed river goes to showdown, and any
earlier street advances (dealing the flop / turn / river card(s) and
refilling `toActIds`).  Without closure the round does not advance and
only the turn passes to the next actor.  The final conjunct records that
the all-in path's board reveal produces the full 5-card board. -/
theorem C4_round_closure (s : State)
    (h2 : 2 ≤ (s.game.players.filter (fun p => !p.hasFolded)).length) :
    ((s.game.toActIds = []
        ∧ (∀ p ∈ s.game.players.filter (fun p => !p.hasFolded),
            p.currentBet = s.game.currentBet))
      → ((s.game.players.filter (fun p => !p.hasFolded)).filter (fun p => p.isAllIn) ≠ [] →
          moveToNextPlayer s = handleAllInShowdown s)
        ∧ ((s.game.players.filter (fun p => !p.hasFolded)).filter (fun p => p.isAllIn) = [] →
            s.game.round = Round.river →
            moveToNextPlayer s
              = handleShowdown { s with game := { s.game with round := Round.showdown } })
        ∧ ((s.game.players.filter (fun p => !p.hasFolded)).filter (fun p => p.isAllIn) = [] →
            s.game.round = Round.preflop → 4 ≤ s.game.deck.length →
            (moveToNextPlayer s).game.round = Round.flop
            ∧ (moveToNextPlayer s).game.board.length = s.game.board.length + 3
            ∧ (moveToNextPlayer s).game.toActIds
              = (s.game.players.filter (fun p => !p.hasFolded)).map (fun p => p.id)
            ∧ (moveToNextPlayer s).game.pot = s.game.pot)
        ∧ ((s.game.players.filter (fun p => !p.hasFolded)).filter (fun p => p.isAllIn) = [] →
            s.game.round = Round.flop → 2 ≤ s.game.deck.length →
            (moveToNextPlayer s).game.round = Round.turn
            ∧ (moveToNextPlayer s).game.board.length = s.game.board.length + 1
            ∧ (moveToNextPlayer s).game.toActIds
              = (s.game.players.filter (fun p => !p.hasFolded)).map (fun p => p.id)
            ∧ (moveToNextPlayer s).game.pot = s.game.pot)
        ∧ ((s.game.players.filter (fun p => !p.hasFolded)).filter (fun p => p.isAllIn) = [] →
            s.game.round = Round.turn → 2 ≤ s.game.deck.length →
            (moveToNextPlayer s).game.round = Round.river
            ∧ (moveToNextPlayer s).game.board.length = s.game.board.length + 1
            ∧ (moveToNextPlayer s).game.toActIds
              = (s.game.players.filter (fun p => !p.hasFolded)).map (fun p => p.id)
            ∧ (moveToNextPlayer s).game.pot = s.game.pot))
    ∧ (¬ (s.game.toActIds = []
        ∧ (∀ p ∈ s.game.players.filter (fun p => !p.hasFolded),
            p.currentBet = s.game.currentBet))
      → moveToNextPlayer s
          = { s with game :=
              { s.game with
                  currentPlayerIndex := findNextActorIndex s.game s.game.currentPlayerIndex } })
    ∧ (s.game.board = [] → s.game.round ≠ Round.showdown → 8 ≤ s.game.deck.length →
        (revealRemainingBoard s.game).board.length = 5
        ∧ (revealRemainingBoard s.game).round = Round.river) := by
  have hlen1 : ¬ (((s.game.players.filter (fun p => !p.hasFolded)).length == 1) = true) := by
    simp; omega
  refine ⟨?_, ?_, fun hb hr hd => reveal_full_board s.game hb hr hd⟩
  · rintro ⟨hta, hall⟩
    have hcond : (s.game.toActIds.length == 0
        && (s.game.players.filter (fun p => !p.hasFolded)).all
            (fun p => p.currentBet == s.game.currentBet)) = true := by
      simp [hta, List.all_eq_true]
      intro p hp1
      by_cases hf : p.hasFolded = true
      · exact Or.inl hf
      · exact Or.inr (hall p (List.mem_filter.mpr ⟨hp1, by simp [hf]⟩))
    have hmv_allin : (s.game.players.filter (fun p => !p.hasFolded)).filter
        (fun p => p.isAllIn) ≠ [] → moveToNextPlayer s = handleAllInShowdown s := by
      intro hallin
      simp only [moveToNextPlayer]
      rw [if_neg hlen1, if_pos hcond,
        if_pos (by simpa [List.length_pos] using hallin)]
    have hmv_adv : (s.game.players.filter (fun p => !p.hasFolded)).filter
        (fun p => p.isAllIn) = [] → s.game.round ≠ Round.river →
        moveToNextPlayer s = advanceToNextRound s := by
      intro hnoallin hnotriver
      simp only [moveToNextPlayer]
      rw [if_neg hlen1, if_pos hcond,
        if_neg (by simp [hnoallin]),
        if_neg (by simp [hnotriver])]
    refine ⟨hmv_allin, ?_, ?_, ?_, ?_⟩
    · intro hnoallin hriver
      simp only [moveToNextPlayer]
      rw [if_neg hlen1, if_pos hcond,
        if_neg (by simp [hnoallin]),
        if_pos (by simp [hriver])]
    · intro hnoallin hround hdeck
      rw [hmv_adv hnoallin (by rw [hround]; exact fun h => Round.noConfusion h)]
      exact advance_from_preflop s hround hdeck
    · intro hnoallin hround hdeck
      rw [hmv_adv hnoallin (by rw [hround]; exact fun h => Round.noConfusion h)]
      exact advance_from_flop s hround hdeck
    · intro hnoallin hround hdeck
      rw [hmv_adv hnoallin (by rw [hround]; exact fun h => Round.noConfusion h)]
      exact advance_from_turn s hround hdeck
  · intro hncl
    have hcond : ¬ ((s.game.toActIds.length == 0
        && (s.game.players.filter (fun p => !p.hasFolded)).all
            (fun p => p.currentBet == s.game.currentBet)) = true) := by
      intro hc
      apply hncl
      simp only [Bool.and_eq_true, beq_iff_eq, List.all_eq_true] at hc
      refine ⟨List.length_eq_zero.mp hc.1, ?_⟩
      intro p hp
      simpa using hc.2 p hp
    simp only [moveToNextPlayer]
    rw [if_neg hlen1, if_neg hcond]

/-- Witness for `C4_round_closure`: `exClosureState` is a closed preflop
round with no all-in, so the flop is dealt; its fresh deck also admits the
full reveal. -/
theorem C4_round_closure_witness :
    ((moveToNextPlayer exClosureState).game.round = Round.flop
      ∧ (moveToNextPlayer exClosureState).game.board.length
        = exClosureState.game.board.length + 3
      ∧ (moveToNextPlayer exClosureState).game.toActIds
        = (exClosureState.game.players.filter
            (fun p => !p.hasFolded)).map (fun p => p.id)
      ∧ (moveToNextPlayer exClosureState).game.pot = exClosureState.game.pot)
    ∧ ((revealRemainingBoard exClosureState.game).board.length = 5
      ∧ (revealRemainingBoard exClosureState.game).round = Round.river) :=
  ⟨((C4_round_closure exClosureState (by decide)).1
      (by constructor
          · rfl
          · decide)).2.2.1 (by decide) rfl (by decide),
    (C4_round_closure exClosureState (by decide)).2.2 rfl (by decide) (by decide)⟩


/-! ### Buy-in deduction -/

theorem deduct_preserves_missing (betAmount : Int) (pid : String) :
    ∀ (ids : List String) (db : Ledger), dbFind db pid = none →
      dbFind (deductPlayersFunds ids betAmount db).2 pid = none := by
  intro ids
  induction ids with
  | nil => intro db h; simpa [deductPlayersFunds] using h
  | cons q ids ih =>
    intro db h
    simp only [deductPlayersFunds, List.foldl_cons] at ih ⊢
    cases hfq : dbFind db q with
    | none =>
      rw [show deductOne db q betAmount = db by simp [deductOne, hfq]]
      exact ih db h
    | some amt =>
      by_cases hge : amt ≥ betAmount
      · rw [show deductOne db q betAmount = dbSet db q (amt - betAmount) by
          simp [deductOne, hfq, hge]]
        have hne : pid ≠ q := fun he => by rw [he, hfq] at h; cases h
        exact ih _ (by rw [dbFind_dbSet_other db q pid _ hne]; exact h)
      · rw [show deductOne db q betAmount = db by simp [deductOne, hfq, hge]]
        exact ih db h

theorem deduct_skips_poor (betAmount : Int) (pid : String) (a : Int)
    (hlt : a < betAmount) :
    ∀ (ids : List String) (db : Ledger), dbFind db pid = some a →
      dbFind (deductPlayersFunds ids betAmount db).2 pid = some a := by
  intro ids
  induction ids with
  | nil => intro db h; simpa [deductPlayersFunds] using h
  | cons q ids ih =>
    intro db h
    simp only [deductPlayersFunds, List.foldl_cons] at ih ⊢
    cases hfq : dbFind db q with
    | none =>
      rw [show deductOne db q betAmount = db by simp [deductOne, hfq]]
      exact ih db h
    | some amt =>
      by_cases hge : amt ≥ betAmount
      · rw [show deductOne db q betAmount = dbSet db q (amt - betAmount) by
          simp [deductOne, hfq, hge]]
        have hne : pid ≠ q := by
          intro he
          rw [he, hfq] at h
          have : a = amt := by simpa using h.symm
          omega
        exact ih _ (by rw [dbFind_dbSet_other db q pid _ hne]; exact h)
      · rw [show deductOne db q betAmount = db by simp [deductOne, hfq, hge]]
        exact ih db h

/-- C10: `deductPlayersFunds` reports success on every input; a listed
player with no database row stays absent and undebited, a listed player
whose balance is below the stake keeps that balance untouched, yet
`startGame` still opens the hand with `pot = players × betAmount` — so a
hand can begin with a pot exceeding what was actually collected. -/
theorem C10_deduct_silent_skip (playerIds : List String) (betAmount : Int) (db : Ledger) :
    (deductPlayersFunds playerIds betAmount db).1.success = true
    ∧ (∀ pid, dbFind db pid = none →
        dbFind (deductPlayersFunds playerIds betAmount db).2 pid = none)
    ∧ (∀ pid a, dbFind db pid = some a → a < betAmount →
        dbFind (deductPlayersFunds playerIds betAmount db).2 pid = some a)
    ∧ (startGame playerIds betAmount db).game.pot = playerIds.length * betAmount
    ∧ (startGame playerIds betAmount db).game.isActive = true
    ∧ (startGame playerIds betAmount db).db = (deductPlayersFunds playerIds betAmount db).2 :=
  ⟨rfl,
    fun pid h => deduct_preserves_missing betAmount pid playerIds db h,
    fun pid a h hlt => deduct_skips_poor betAmount pid a hlt playerIds db h,
    rfl, rfl, rfl⟩

/-- Witness for `C10_deduct_silent_skip`: one player below the stake and
one with no row — the call still succeeds, nobody is debited, and the pot
opens at 2 × 10 = 20. -/
theorem C10_deduct_silent_skip_witness :
    (deductPlayersFunds ["a", "ghost"] 10 [("a", 3)]).1.success = true
    ∧ dbFind (deductPlayersFunds ["a", "ghost"] 10 [("a", 3)]).2 "ghost" = none
    ∧ dbFind (deductPlayersFunds ["a", "ghost"] 10 [("a", 3)]).2 "a" = some 3
    ∧ (startGame ["a", "ghost"] 10 [("a", 3)]).game.pot
      = (["a", "ghost"] : List String).length * 10 :=
  ⟨(C10_deduct_silent_skip ["a", "ghost"] 10 [("a", 3)]).1,
    (C10_deduct_silent_skip ["a", "ghost"] 10 [("a", 3)]).2.1 "ghost" (by decide),
    (C10_deduct_silent_skip ["a", "ghost"] 10 [("a", 3)]).2.2.1 "a" 3 (by decide) (by decide),
    (C10_deduct_silent_skip ["a", "ghost"] 10 [("a", 3)]).2.2.2.1⟩


/-! ### The toActIds invariant -/

/-- `toActIds` only holds ids of non-folded players. -/
def ToActInv (g : Game) : Prop :=
  ∀ id ∈ g.toActIds, ∃ p ∈ g.players, p.id = id ∧ p.hasFolded = false

/-- States reachable from a fresh hand by the engine's operations: game
start, the card deal, every player action, and the two forced timeout
actions. -/
inductive Reachable : State → Prop
  | start (playerIds : List String) (betAmount : Int) (db : Ledger) :
      Reachable (startGame playerIds betAmount db)
  | deal (s : State) : Reachable s → Reachable (dealCardsAndStartGame s)
  | call (pid : String) (s : State) : Reachable s → Reachable (makeCall pid s).2
  | check (pid : String) (s : State) : Reachable s → Reachable (makeCheck pid s).2
  | fold (pid : String) (s : State) : Reachable s → Reachable (makeFold pid s).2
  | raise (pid : String) (toTotal : Int) (s : State) :
      Reachable s → Reachable (makeRaise pid toTotal s).2
  | raiseByBetAmount (pid : String) (s : State) :
      Reachable s → Reachable (makeRaiseByBetAmount pid s).2
  | raiseByMultiplier (pid : String) (multiplier : Int) (s : State) :
      Reachable s → Reachable (makeRaiseByMultiplier pid multiplier s).2
  | raiseByPot (pid : String) (s : State) :
      Reachable s → Reachable (makeRaiseByPot pid s).2
  | allin (pid : String) (s : State) : Reachable s → Reachable (makeAllIn pid s).2
  | graceTimeout (pid : String) (s : State) :
      Reachable s → Reachable (handleInsufficientFundsTimeout pid s)
  | turnTimeout (pid : String) (s : State) :
      Reachable s → Reachable (handleTurnTimeout pid s)

theorem mem_set_of_mem_ne {α : Type} {x a b : α} :
    ∀ {l : List α} {i : Nat}, x ∈ l → l[i]? = some a → x ≠ a → x ∈ l.set i b := by
  intro l
  induction l with
  | nil => intro i hx; cases hx
  | cons y ys ih =>
    intro i hx hi hne
    cases i with
    | zero =>
      simp only [List.getElem?_cons_zero, Option.some.injEq] at hi
      rcases List.mem_cons.mp hx with rfl | hys
      · exact absurd hi hne
      · exact List.mem_cons_of_mem _ hys
    | succ n =>
      simp only [List.getElem?_cons_succ] at hi
      rcases List.mem_cons.mp hx with rfl | hys
      · exact List.mem_cons_self _ _
      · exact List.mem_cons_of_mem _ (ih hys hi hne)

theorem inv_newRound (g : Game) : ToActInv (setToActForNewRound g) := by
  intro id hid
  simp only [setToActForNewRound, List.mem_map, List.mem_filter] at hid
  obtain ⟨p, ⟨hp, hpf⟩, hpe⟩ := hid
  exact ⟨p, hp, hpe, by simpa using hpf⟩

theorem inv_afterRaise (g : Game) (pid : String) :
    ToActInv (setToActAfterRaise g pid) := by
  intro id hid
  simp only [setToActAfterRaise, List.mem_map, List.mem_filter] at hid
  obtain ⟨p, ⟨hp, hpf⟩, hpe⟩ := hid
  rw [Bool.and_eq_true] at hpf
  exact ⟨p, hp, hpe, by simpa using hpf.1⟩

theorem inv_addHistory (g : Game) (pid : String) (k : ActionKind) (a t : Option Int)
    (h : ToActInv g) : ToActInv (addActionToHistory g pid k a t) := by
  intro id hid
  rw [(addActionToHistory_only_history g pid k a t).2.1] at hid
  rw [(addActionToHistory_only_history g pid k a t).1]
  exact h id hid

theorem inv_reset (s : State) (h : ToActInv s.game) :
    ToActInv (resetForNextHand s).game := by
  intro id hid
  simp only [resetForNextHand] at hid ⊢
  obtain ⟨p, hp, hpe, _⟩ := h id hid
  refine ⟨{ p with hole := [], hasFolded := false, currentBet := 0, isAllIn := false, chips := 0 },
    ?_, hpe, rfl⟩
  exact List.mem_map_of_mem _ hp

theorem inv_award (winnerIds : List String) (s : State) (h : ToActInv s.game) :
    ToActInv (awardPotAndRotate winnerIds s).game := by
  unfold awardPotAndRotate
  split
  · exact inv_reset s h
  · split
    · exact h
    · exact inv_reset _ h

theorem burnOne_keeps (g : Game) :
    (burnOne g).players = g.players ∧ (burnOne g).toActIds = g.toActIds := by
  unfold burnOne
  split <;> simp

theorem dealToBoard_keeps (g : Game) :
    (dealToBoard g).players = g.players ∧ (dealToBoard g).toActIds = g.toActIds := by
  unfold dealToBoard
  split <;> simp

theorem revealFlopStage_keeps (g : Game) :
    (revealFlopStage g).players = g.players
    ∧ (revealFlopStage g).toActIds = g.toActIds := by
  unfold revealFlopStage
  split
  · split <;>
      simp [(burnOne_keeps _).1, (burnOne_keeps _).2,
        (dealToBoard_keeps _).1, (dealToBoard_keeps _).2]
  · simp

theorem revealTurnStage_keeps (g : Game) :
    (revealTurnStage g).players = g.players
    ∧ (revealTurnStage g).toActIds = g.toActIds := by
  unfold revealTurnStage
  split
  · split <;>
      simp [(burnOne_keeps _).1, (burnOne_keeps _).2,
        (dealToBoard_keeps _).1, (dealToBoard_keeps _).2]
  · simp

theorem revealRiverStage_keeps (g : Game) :
    (revealRiverStage g).players = g.players
    ∧ (revealRiverStage g).toActIds = g.toActIds := by
  unfold revealRiverStage
  split
  · split <;>
      simp [(burnOne_keeps _).1, (burnOne_keeps _).2,
        (dealToBoard_keeps _).1, (dealToBoard_keeps _).2]
  · simp

theorem revealFinal_keeps (g : Game) :
    (revealFinal g).players = g.players ∧ (revealFinal g).toActIds = g.toActIds := by
  unfold revealFinal
  split <;> simp

theorem reveal_keeps (g : Game) :
    (revealRemainingBoard g).players = g.players
    ∧ (revealRemainingBoard g).toActIds = g.toActIds := by
  unfold revealRemainingBoard
  rw [(revealFinal_keeps _).1, (revealFinal_keeps _).2,
    (revealRiverStage_keeps _).1, (revealRiverStage_keeps _).2,
    (revealTurnStage_keeps _).1, (revealTurnStage_keeps _).2,
    (revealFlopStage_keeps _).1, (revealFlopStage_keeps _).2]
  exact ⟨rfl, rfl⟩

theorem inv_reveal (s : State) (h : ToActInv s.game) :
    ToActInv (revealRemainingBoard s.game) := by
  intro id hid
  rw [(reveal_keeps s.game).2] at hid
  rw [(reveal_keeps s.game).1]
  exact h id hid

theorem inv_handleShowdown (s : State) (h : ToActInv s.game) :
    ToActInv (handleShowdown s).game := by
  unfold handleShowdown
  dsimp only
  split
  · exact inv_reset s h
  · exact inv_award _ _ h

theorem inv_handleAllInShowdown (s : State) (h : ToActInv s.game) :
    ToActInv (handleAllInShowdown s).game := by
  unfold handleAllInShowdown
  dsimp only
  split
  · exact inv_reset _ (inv_reveal s h)
  · split
    · exact inv_award _ _ (inv_reveal s h)
    · exact inv_award _ _ (inv_reveal s h)

theorem getActiveGame_some (s : State) (g : Game) (h : getActiveGame s = some g) :
    g = s.game := by
  unfold getActiveGame at h
  split at h
  · exact (Option.some.inj h).symm
  · cases h

theorem inv_start (playerIds : List String) (betAmount : Int) (db : Ledger) :
    ToActInv (startGame playerIds betAmount db).game := by
  intro id hid
  simp [startGame] at hid

theorem inv_postBlinds (g : Game) : ToActInv (postBlinds g) := by
  unfold postBlinds
  dsimp only
  intro id hid
  exact inv_newRound _ id hid

theorem inv_deal (s : State) (h : ToActInv s.game) :
    ToActInv (dealCardsAndStartGame s).game := by
  unfold dealCardsAndStartGame
  split
  · exact h
  · dsimp only
    cases h1 : dealRound s.game.players s.game.deck with
    | mk ps1 d1 =>
      dsimp only
      cases h2 : dealRound ps1 d1 with
      | mk ps2 d2 =>
        dsimp only
        exact inv_postBlinds _

theorem inv_remove (g : Game) (pid : String) (h : ToActInv g) :
    ToActInv (removeFromToAct g pid) := by
  intro id hid
  simp only [removeFromToAct, List.mem_filter, decide_eq_true_eq] at hid
  exact h id hid.1

theorem inv_set_remove (g g' : Game) (idx : Nat) (cp newP : Player) (pid : String)
    (h : ToActInv g) (hidx : g.players.get? idx = some cp) (hcpid : cp.id = pid)
    (hg'p : g'.players = g.players.set idx newP) (hg't : g'.toActIds = g.toActIds) :
    ToActInv (removeFromToAct g' pid) := by
  intro id hid
  simp only [removeFromToAct, hg't, List.mem_filter, decide_eq_true_eq] at hid
  obtain ⟨p, hp, hpe, hpf⟩ := h id hid.1
  refine ⟨p, ?_, hpe, hpf⟩
  show p ∈ g'.players
  rw [hg'p]
  refine mem_set_of_mem_ne hp (by rw [← List.get?_eq_getElem?]; exact hidx) ?_
  intro he
  exact hid.2 (by rw [← hpe, he]; exact hcpid)

theorem inv_advance (s : State) (h : ToActInv s.game) :
    ToActInv (advanceToNextRound s).game := by
  unfold advanceToNextRound
  dsimp only
  split
  · intro id hid
    exact inv_newRound _ id hid
  · intro id hid
    exact inv_newRound _ id hid
  · intro id hid
    exact inv_newRound _ id hid
  · intro id hid
    exact h id hid
  · exact inv_handleShowdown _ (fun id hid => h id hid)
  · intro id hid
    exact h id hid

theorem inv_moveToNextPlayer (s : State) (h : ToActInv s.game) :
    ToActInv (moveToNextPlayer s).game := by
  unfold moveToNextPlayer
  dsimp only
  split
  · exact inv_award _ _ h
  · split
    · split
      · exact inv_handleAllInShowdown s h
      · split
        · exact inv_handleShowdown _ (fun id hid => h id hid)
        · exact inv_advance s h
    · intro id hid
      exact h id hid

theorem inv_checkAndContinueGame (s : State) (h : ToActInv s.game) :
    ToActInv (checkAndContinueGame s).game := by
  unfold checkAndContinueGame
  split
  · exact h
  · dsimp only
    split
    · exact inv_award _ _ h
    · split
      · split
        · exact inv_handleAllInShowdown s h
        · split
          · exact inv_handleShowdown _ (fun id hid => h id hid)
          · exact inv_advance s h
      · split
        · intro id hid
          exact h id hid
        · exact h

theorem inv_makeCall (pid : String) (s : State) (h : ToActInv s.game) :
    ToActInv (makeCall pid s).2.game := by
  unfold makeCall
  cases hga : getActiveGame s with
  | none => exact h
  | some g =>
    have hg := getActiveGame_some s g hga
    dsimp only
    cases hcp : g.players.get? g.currentPlayerIndex with
    | none => exact h
    | some cp =>
      dsimp only
      by_cases h1 : cp.id ≠ pid
      · rw [if_pos h1]; exact h
      · rw [if_neg h1]
        push_neg at h1
        by_cases h2 : cp.hasFolded
        · rw [if_pos h2]; exact h
        · rw [if_neg h2]
          by_cases h3 : g.currentBet - cp.currentBet ≤ 0
          · rw [if_pos h3]; exact h
          · rw [if_neg h3]
            by_cases h4 : (dbFind s.db pid).getD 0 < g.currentBet - cp.currentBet
            · rw [if_pos h4]; exact h
            · rw [if_neg h4]
              exact inv_moveToNextPlayer _ (inv_addHistory _ _ _ _ _
                (inv_set_remove g _ g.currentPlayerIndex cp _ pid (hg.symm ▸ h) hcp h1 rfl rfl))

theorem inv_makeCheck (pid : String) (s : State) (h : ToActInv s.game) :
    ToActInv (makeCheck pid s).2.game := by
  unfold makeCheck
  cases hga : getActiveGame s with
  | none => exact h
  | some g =>
    have hg := getActiveGame_some s g hga
    dsimp only
    cases hcp : g.players.get? g.currentPlayerIndex with
    | none => exact h
    | some cp =>
      dsimp only
      by_cases h1 : cp.id ≠ pid
      · rw [if_pos h1]; exact h
      · rw [if_neg h1]
        by_cases h2 : cp.hasFolded
        · rw [if_pos h2]; exact h
        · rw [if_neg h2]
          by_cases h3 : cp.currentBet < g.currentBet
          · rw [if_pos h3]; exact h
          · rw [if_neg h3]
            exact inv_moveToNextPlayer _ (inv_addHistory _ _ _ _ _
              (inv_remove g pid (hg.symm ▸ h)))

theorem inv_makeFold (pid : String) (s : State) (h : ToActInv s.game) :
    ToActInv (makeFold pid s).2.game := by
  unfold makeFold
  cases hga : getActiveGame s with
  | none => exact h
  | some g =>
    have hg := getActiveGame_some s g hga
    dsimp only
    cases hcp : g.players.get? g.currentPlayerIndex with
    | none => exact h
    | some cp =>
      dsimp only
      by_cases h1 : cp.id ≠ pid
      · rw [if_pos h1]; exact h
      · rw [if_neg h1]
        push_neg at h1
        by_cases h2 : cp.hasFolded
        · rw [if_pos h2]; exact h
        · rw [if_neg h2]
          exact inv_moveToNextPlayer _ (inv_addHistory _ _ _ _ _
            (inv_set_remove g _ g.currentPlayerIndex cp _ pid (hg.symm ▸ h) hcp h1 rfl rfl))

theorem inv_makeRaise (pid : String) (toTotal : Int) (s : State) (h : ToActInv s.game) :
    ToActInv (makeRaise pid toTotal s).2.game := by
  unfold makeRaise
  cases hga : getActiveGame s with
  | none => exact h
  | some g =>
    dsimp only
    cases hcp : g.players.get? g.currentPlayerIndex with
    | none => exact h
    | some cp =>
      dsimp only
      by_cases h1 : cp.id ≠ pid
      · rw [if_pos h1]; exact h
      · rw [if_neg h1]
        by_cases h2 : cp.hasFolded
        · rw [if_pos h2]; exact h
        · rw [if_neg h2]
          by_cases h3 : toTotal - cp.currentBet ≤ 0 ∨ toTotal - cp.currentBet > cp.chips
          · rw [if_pos h3]; exact h
          · rw [if_neg h3]
            by_cases h4 : toTotal ≤ g.currentBet
            · rw [if_pos h4]; exact h
            · rw [if_neg h4]
              by_cases h5 : (dbFind s.db pid).getD 0 < toTotal - cp.currentBet
              · rw [if_pos h5]; exact h
              · rw [if_neg h5]
                exact inv_moveToNextPlayer _ (inv_addHistory _ _ _ _ _ (inv_afterRaise _ _))

theorem inv_makeRaiseByBetAmount (pid : String) (s : State) (h : ToActInv s.game) :
    ToActInv (makeRaiseByBetAmount pid s).2.game := by
  unfold makeRaiseByBetAmount
  cases hga : getActiveGame s with
  | none => exact h
  | some g =>
    dsimp only
    cases hcp : g.players.get? g.currentPlayerIndex with
    | none => exact h
    | some cp =>
      dsimp only
      by_cases h1 : cp.id ≠ pid
      · rw [if_pos h1]; exact h
      · rw [if_neg h1]
        by_cases h2 : cp.hasFolded
        · rw [if_pos h2]; exact h
        · rw [if_neg h2]
          by_cases h3 : g.currentBet + g.betAmount - cp.currentBet ≤ 0
          · rw [if_pos h3]; exact h
          · rw [if_neg h3]
            by_cases h4 : (dbFind s.db pid).getD 0 < g.currentBet + g.betAmount - cp.currentBet
            · rw [if_pos h4]; exact h
            · rw [if_neg h4]
              exact inv_moveToNextPlayer _ (inv_addHistory _ _ _ _ _ (inv_afterRaise _ _))

theorem inv_makeRaiseByMultiplier (pid : String) (multiplier : Int) (s : State)
    (h : ToActInv s.game) : ToActInv (makeRaiseByMultiplier pid multiplier s).2.game := by
  unfold makeRaiseByMultiplier
  cases hga : getActiveGame s with
  | none => exact h
  | some g =>
    dsimp only
    cases hcp : g.players.get? g.currentPlayerIndex with
    | none => exact h
    | some cp =>
      dsimp only
      by_cases h1 : cp.id ≠ pid
      · rw [if_pos h1]; exact h
      · rw [if_neg h1]
        by_cases h2 : cp.hasFolded
        · rw [if_pos h2]; exact h
        · rw [if_neg h2]
          by_cases h3 : g.currentBet + max 0 (g.betAmount * multiplier) - cp.currentBet ≤ 0
          · rw [if_pos h3]; exact h
          · rw [if_neg h3]
            by_cases h4 : (dbFind s.db pid).getD 0
                < g.currentBet + max 0 (g.betAmount * multiplier) - cp.currentBet
            · rw [if_pos h4]; exact h
            · rw [if_neg h4]
              exact inv_moveToNextPlayer _ (inv_addHistory _ _ _ _ _ (inv_afterRaise _ _))

theorem inv_makeRaiseByPot (pid : String) (s : State) (h : ToActInv s.game) :
    ToActInv (makeRaiseByPot pid s).2.game := by
  unfold makeRaiseByPot
  cases hga : getActiveGame s with
  | none => exact h
  | some g =>
    dsimp only
    cases hcp : g.players.get? g.currentPlayerIndex with
    | none => exact h
    | some cp =>
      dsimp only
      by_cases h1 : cp.id ≠ pid
      · rw [if_pos h1]; exact h
      · rw [if_neg h1]
        by_cases h2 : cp.hasFolded
        · rw [if_pos h2]; exact h
        · rw [if_neg h2]
          by_cases h3 : g.currentBet + max g.betAmount g.pot - cp.currentBet ≤ 0
          · rw [if_pos h3]; exact h
          · rw [if_neg h3]
            by_cases h4 : (dbFind s.db pid).getD 0
                < g.currentBet + max g.betAmount g.pot - cp.currentBet
            · rw [if_pos h4]; exact h
            · rw [if_neg h4]
              exact inv_moveToNextPlayer _ (inv_addHistory _ _ _ _ _ (inv_afterRaise _ _))

theorem inv_makeAllIn (pid : String) (s : State) (h : ToActInv s.game) :
    ToActInv (makeAllIn pid s).2.game := by
  unfold makeAllIn
  cases hga : getActiveGame s with
  | none => exact h
  | some g =>
    dsimp only
    cases hcp : g.players.get? g.currentPlayerIndex with
    | none => exact h
    | some cp =>
      dsimp only
      by_cases h1 : cp.id ≠ pid
      · rw [if_pos h1]; exact h
      · rw [if_neg h1]
        by_cases h2 : cp.hasFolded
        · rw [if_pos h2]; exact h
        · rw [if_neg h2]
          by_cases h3 : (dbFind s.db pid).getD 0 ≤ 0
          · rw [if_pos h3]; exact h
          · rw [if_neg h3]
            by_cases h4 : max 0 (g.currentBet - cp.currentBet) > 0
                ∧ (dbFind s.db pid).getD 0 < max 0 (g.currentBet - cp.currentBet)
            · rw [if_pos h4]; exact h
            · rw [if_neg h4]
              by_cases h5 : cp.currentBet + (dbFind s.db pid).getD 0 > g.currentBet
              · rw [if_pos h5]
                exact inv_addHistory _ _ _ _ _
                  (inv_moveToNextPlayer _ (inv_afterRaise _ _))
              · rw [if_neg h5]
                exact inv_addHistory _ _ _ _ _
                  (inv_moveToNextPlayer _ (fun id hid => inv_afterRaise _ _ id hid))

theorem inv_graceTimeout (pid : String) (s : State) (h : ToActInv s.game) :
    ToActInv (handleInsufficientFundsTimeout pid s).game := by
  unfold handleInsufficientFundsTimeout
  split
  · exact h
  · dsimp only
    cases hfi : s.game.players.findIdx? (fun p => p.id == pid) with
    | none => exact h
    | some idx =>
      dsimp only
      cases hcp : s.game.players.get? idx with
      | none => exact h
      | some player =>
        dsimp only
        by_cases h2 : player.hasFolded
        · rw [if_pos h2]; exact h
        · rw [if_neg h2]
          by_cases h3 : (dbFind s.db pid).getD 0 < s.game.currentBet - player.currentBet
          · rw [if_pos h3]
            have hpid : player.id = pid := by
              rw [List.findIdx?_eq_some_iff_getElem] at hfi
              obtain ⟨hlt, hp, _⟩ := hfi
              rw [List.get?_eq_getElem?, List.getElem?_eq_getElem hlt] at hcp
              have he := Option.some.inj hcp
              rw [← he]
              exact eq_of_beq hp
            exact inv_checkAndContinueGame _
              (inv_set_remove s.game _ idx player _ pid h hcp hpid rfl rfl)
          · rw [if_neg h3]; exact h

theorem inv_turnTimeout (pid : String) (s : State) (h : ToActInv s.game) :
    ToActInv (handleTurnTimeout pid s).game := by
  unfold handleTurnTimeout
  cases hcp : s.game.players.get? s.game.currentPlayerIndex with
  | none => exact h
  | some player =>
    dsimp only
    split
    · exact inv_makeFold pid s h
    · exact h

/-- C9: in every game state reachable from a fresh hand by the engine's
operations (game start, the card deal, raise variants, call, check, fold,
all-in, and the two forced timeout folds), every id in `toActIds` is the
id of a seated player who has not folded: starting a round sets it to all
non-folded players, a raise sets it to the non-folded players minus the
raiser, and every fold removes the folding player's id. -/
theorem C9_toact_subset_nonfolded (s : State) (h : Reachable s) : ToActInv s.game := by
  induction h with
  | start playerIds betAmount db => exact inv_start playerIds betAmount db
  | deal s _ ih => exact inv_deal s ih
  | call pid s _ ih => exact inv_makeCall pid s ih
  | check pid s _ ih => exact inv_makeCheck pid s ih
  | fold pid s _ ih => exact inv_makeFold pid s ih
  | raise pid toTotal s _ ih => exact inv_makeRaise pid toTotal s ih
  | raiseByBetAmount pid s _ ih => exact inv_makeRaiseByBetAmount pid s ih
  | raiseByMultiplier pid multiplier s _ ih => exact inv_makeRaiseByMultiplier pid multiplier s ih
  | raiseByPot pid s _ ih => exact inv_makeRaiseByPot pid s ih
  | allin pid s _ ih => exact inv_makeAllIn pid s ih
  | graceTimeout pid s _ ih => exact inv_graceTimeout pid s ih
  | turnTimeout pid s _ ih => exact inv_turnTimeout pid s ih

/-- Witness for C9 at a concrete reachable state: a freshly started
two-player game. -/
theorem C9_toact_subset_nonfolded_witness :
    ToActInv (startGame ["p1", "p2"] 10 [("p1", 100), ("p2", 100)]).game :=
  C9_toact_subset_nonfolded (startGame ["p1", "p2"] 10 [("p1", 100), ("p2", 100)])
    (Reachable.start ["p1", "p2"] 10 [("p1", 100), ("p2", 100)])

end Poker
